import Mathlib

/-!
# issue-creator: the issue service (`domain/issue/domain.go`)

A shallow embedding of `isDiscussion`, `issueServiceImpl.render` and
`issueServiceImpl.Create`, followed by the properties proved about them.

Conventions of the embedding.

* A Go `error` value is `Option GoError` (`none` is the nil error).
* A repository method returning `(types.Issue, error)` is a function from the
  world state to that pair and the next world state.
* `render` and `Create` return an `Outcome`: a value with a nil error, a non-nil
  error, or a run-time panic.  Every repository call made is appended to a trace.
* Standard-library behaviour that the service only consumes (URL parsing, the
  text/template engine, the layout language of `Time.Format`, temporary files,
  process execution) is a field of `Platform`.
* `Time.AddDate` is embedded from the `time` package, with the 64-bit wrapping
  of its integer arithmetic and the zone lookup of the location.
-/

namespace IssueCreator

/-! ## Errors (`github.com/pkg/errors`) -/

/-- Error values as the service sees them: `fundamental` is `errors.New` or any
error that has no `Cause` method, `withStack` and `withMessage` are the two
wrappers of `pkg/errors`, and `nilCauser` is an error whose `Cause` method
returns nil. -/
inductive GoError where
  | fundamental (msg : String)
  | withStack (cause : GoError)
  | withMessage (cause : GoError) (msg : String)
  | nilCauser (msg : String)
  deriving DecidableEq, Repr

/-- The `Error()` method. -/
def GoError.Error : GoError → String
  | .fundamental msg => msg
  | .withStack cause => cause.Error
  | .withMessage cause msg => msg ++ ": " ++ cause.Error
  | .nilCauser msg => msg

/-- The loop of `errors.Cause` on a non-nil error: follow `Cause()` while the
error has that method. -/
def GoError.rootCause : GoError → Option GoError
  | .fundamental msg => some (.fundamental msg)
  | .withStack cause => cause.rootCause
  | .withMessage cause _ => cause.rootCause
  | .nilCauser _ => none

/-- `errors.Cause(err)`; the nil error is returned unchanged. -/
def errors.Cause : Option GoError → Option GoError
  | none => none
  | some e => e.rootCause

/-- `errors.New(msg)`. -/
def errors.New (msg : String) : GoError := .fundamental msg

/-- `errors.WithStack(err)` on a non-nil error. -/
def errors.WithStack (err : GoError) : GoError := .withStack err

/-- `errors.Wrap(err, msg)` on a non-nil error. -/
def errors.Wrap (err : GoError) (msg : String) : GoError :=
  .withStack (.withMessage err msg)

/-! ## Data model (`types.Issue`) -/

/-- Modelled from the spec: the `types.Issue` record (its declaration is in the
`types` package); `URL` is a `*string`, `Labels` a `[]string`. -/
structure Issue where
  Owner : String
  Repository : String
  Title : String
  Body : String
  Labels : List String
  URL : Option String
  LastIssueURL : String
  deriving DecidableEq, Repr

/-- The zero value `types.Issue{}`. -/
def Issue.zero : Issue :=
  { Owner := "", Repository := "", Title := "", Body := "", Labels := [],
    URL := none, LastIssueURL := "" }

/-! ## URL classification -/

/-- The part of `*url.URL` the service reads. -/
structure URL where
  Path : String
  deriving DecidableEq, Repr

/-- Split a character list at every occurrence of `sep`; `n` separators give
`n + 1` pieces. -/
def splitChars (sep : Char) : List Char → List (List Char)
  | [] => [[]]
  | c :: cs =>
    if c = sep then [] :: splitChars sep cs
    else
      match splitChars sep cs with
      | [] => [[c]]
      | p :: ps => (c :: p) :: ps

/-- `strings.Split(s, sep)` for a one-character separator. -/
def strings.Split (s : String) (sep : Char) : List String :=
  (splitChars sep s.data).map String.mk

/-- `isDiscussion`; `urlParse` is `url.Parse`.
Expect: /:owner/:repository/[discussions|issues]/:number -/
def isDiscussion (urlParse : String → Except GoError URL) (templateIssueURL : String) : Bool :=
  match urlParse templateIssueURL with
  | .error _ => false
  | .ok pu =>
    let path := pu.Path
    let s := strings.Split path '/'
    if s.length ≠ 5 then false
    else "discussions" == s.getD 3 ""

/-! ## Calendar arithmetic (`time.Time.AddDate`)

The reference time is a `time.Time`, by default the local time `time.Now()`.
The model follows the `time` package (the algorithms of Go 1.22 and earlier):
`int` is 64 bits wide, and every operation on an `int`, `int64` or `uint64`
that can leave the word is followed by the conversion that wraps it. -/

/-- The value of an integer as an `int64` (and as an `int`): wrapped into
`[-2^63, 2^63)`. -/
def int64 (x : Int) : Int :=
  (x + 9223372036854775808) % 18446744073709551616 - 9223372036854775808

/-- The value of an integer as a `uint64`: wrapped into `[0, 2^64)`. -/
def uint64 (x : Int) : Int :=
  x % 18446744073709551616

/-- A `*time.Location`, as far as `Time` uses it: `lookup sec` returns the
offset in seconds east of UTC in use at the Unix time `sec`, and the Unix times
at which that zone starts and ends (`Location.lookup` without the zone name and
the daylight-saving flag). -/
structure Location where
  lookup : Int → Int × Int × Int

/-- `time.FixedZone(name, offset)`: one zone, in use at all times. -/
def time.FixedZone (offset : Int) : Location :=
  { lookup := fun _ => (offset, -9223372036854775808, 9223372036854775807) }

/-- `time.UTC`. -/
def time.UTC : Location := time.FixedZone 0

/-- A `time.Time`: the Unix time in seconds (`t.unixSec()`), the nanoseconds
within the second (`t.nsec()`, in `[0, 999999999]`) and the location. -/
structure Time where
  unix : Int
  nsec : Int
  loc : Location

def time.absoluteZeroYear : Int := -292277022399
def time.secondsPerMinute : Int := 60
def time.secondsPerHour : Int := 60 * 60
def time.secondsPerDay : Int := 24 * (60 * 60)
def time.daysPer400Years : Int := 365 * 400 + 97
def time.daysPer100Years : Int := 365 * 100 + 24
def time.daysPer4Years : Int := 365 * 4 + 1

/-- The constant `unixToInternal + internalToAbsolute`: the seconds from the
absolute epoch, January 1 of the absolute zero year, to the Unix epoch. -/
def time.unixToAbsolute : Int := 62135596800 + 9223371966579724800

/-- The table `daysBefore`: `daysBefore[m]` counts the days in a non-leap year
before month `m + 1`. -/
def time.daysBefore : List Int :=
  [0, 31, 31 + 28, 31 + 28 + 31, 31 + 28 + 31 + 30, 31 + 28 + 31 + 30 + 31,
   31 + 28 + 31 + 30 + 31 + 30, 31 + 28 + 31 + 30 + 31 + 30 + 31,
   31 + 28 + 31 + 30 + 31 + 30 + 31 + 31, 31 + 28 + 31 + 30 + 31 + 30 + 31 + 31 + 30,
   31 + 28 + 31 + 30 + 31 + 30 + 31 + 31 + 30 + 31,
   31 + 28 + 31 + 30 + 31 + 30 + 31 + 31 + 30 + 31 + 30,
   31 + 28 + 31 + 30 + 31 + 30 + 31 + 31 + 30 + 31 + 30 + 31]

/-- `isLeap(year)`. -/
def time.isLeap (year : Int) : Bool :=
  year % 4 == 0 && (year % 100 != 0 || year % 400 == 0)

/-- `norm(hi, lo, base)`: bring `lo` into `[0, base)`, carrying into `hi`. -/
def time.norm (hi lo base : Int) : Int × Int :=
  let (hi, lo) :=
    if lo < 0 then
      let n := int64 (int64 (int64 (-lo) - 1) / base + 1)
      (int64 (hi - n), int64 (lo + int64 (n * base)))
    else (hi, lo)
  if lo ≥ base then
    let n := lo / base
    (int64 (hi + n), int64 (lo - int64 (n * base)))
  else (hi, lo)

/-- `daysSinceEpoch(year)`: days from the absolute epoch to January 1 of
`year`, as a `uint64`. -/
def time.daysSinceEpoch (year : Int) : Int :=
  let y := uint64 (int64 (year - time.absoluteZeroYear))
  let n := y / 400
  let y := y - 400 * n
  let d := uint64 (time.daysPer400Years * n)
  let n := y / 100
  let y := y - 100 * n
  let d := uint64 (d + time.daysPer100Years * n)
  let n := y / 4
  let y := y - 4 * n
  let d := uint64 (d + time.daysPer4Years * n)
  let n := y
  uint64 (d + 365 * n)

/-- The year and the day within the year (`absDate(abs, false)`) of the absolute
day count `d`, a `uint64`; no step leaves the word, every value being at most
`d`. -/
def time.absYearDay (d : Int) : Int × Int :=
  let n := d / time.daysPer400Years
  let y := 400 * n
  let d := d - time.daysPer400Years * n
  let n := d / time.daysPer100Years
  let n := n - n / 4
  let y := y + 100 * n
  let d := d - time.daysPer100Years * n
  let n := d / time.daysPer4Years
  let y := y + 4 * n
  let d := d - time.daysPer4Years * n
  let n := d / 365
  let n := n - n / 4
  let y := y + n
  let d := d - 365 * n
  (int64 (int64 y + time.absoluteZeroYear), d)

/-- The month and day of `absDate(abs, true)` from the day within the year,
`leap` being the value of `isLeap(year)`. -/
def time.monthDayOf (leap : Bool) (yday : Int) : Int × Int :=
  if leap ∧ yday = 31 + 29 - 1 then (2, 29)
  else
    let day := if leap ∧ yday > 31 + 29 - 1 then yday - 1 else yday
    let month := day / 31
    let fin := time.daysBefore.getD (month + 1).toNat 0
    let (month, begin) :=
      if day ≥ fin then (month + 1, fin)
      else (month, time.daysBefore.getD month.toNat 0)
    (month + 1, day - begin + 1)

/-- The month and day of `absDate(abs, true)` from the year and the day within
the year. -/
def time.monthDay (year yday : Int) : Int × Int :=
  time.monthDayOf (time.isLeap year) yday

/-- The year, month and day of `absDate(abs, true)` from the absolute day
count. -/
def time.dateOfDay (d : Int) : Int × Int × Int :=
  let (year, yday) := time.absYearDay d
  let (month, day) := time.monthDay year yday
  (year, month, day)

/-- `absDate(abs, true)`: year, month and day of the absolute time `abs`. -/
def time.absDate (abs : Int) : Int × Int × Int :=
  time.dateOfDay (abs / time.secondsPerDay)

/-- `absClock(abs)`: hour, minute and second within the day. -/
def time.absClock (abs : Int) : Int × Int × Int :=
  let sec := abs % time.secondsPerDay
  let hour := sec / time.secondsPerHour
  let sec := sec - hour * time.secondsPerHour
  let min := sec / time.secondsPerMinute
  let sec := sec - min * time.secondsPerMinute
  (hour, min, sec)

/-- `t.abs()`: the time as an absolute time, adjusted by the zone offset. -/
def Time.abs (t : Time) : Int :=
  let sec := t.unix
  let offset := (t.loc.lookup sec).1
  let sec := int64 (sec + int64 offset)
  uint64 (int64 (sec + time.unixToAbsolute))

/-- `time.Date(year, month, day, hour, min, sec, nsec, loc)`. -/
def time.Date (year month day hour min sec nsec : Int) (loc : Location) : Time :=
  let m := int64 (month - 1)
  let (year, m) := time.norm year m 12
  let month := int64 (m + 1)
  let (sec, nsec) := time.norm sec nsec 1000000000
  let (min, sec) := time.norm min sec 60
  let (hour, min) := time.norm hour min 60
  let (day, hour) := time.norm day hour 24
  let d := time.daysSinceEpoch year
  let d := uint64 (d + uint64 (time.daysBefore.getD (int64 (month - 1)).toNat 0))
  let d := if time.isLeap year ∧ month ≥ 3 then uint64 (d + 1) else d
  let d := uint64 (d + uint64 (int64 (day - 1)))
  let abs := uint64 (d * time.secondsPerDay)
  let abs := uint64 (abs + uint64 (int64 (int64 (int64 (hour * time.secondsPerHour) +
    int64 (min * time.secondsPerMinute)) + sec)))
  let unix := int64 (int64 abs + -time.unixToAbsolute)
  let zone := loc.lookup unix
  let unix :=
    if zone.1 ≠ 0 then
      let utc := int64 (unix - int64 zone.1)
      let offset := if utc < zone.2.1 ∨ utc ≥ zone.2.2 then (loc.lookup utc).1 else zone.1
      int64 (unix - int64 offset)
    else unix
  { unix := unix, nsec := nsec, loc := loc }

/-- `t.Date()`. -/
def Time.Date (t : Time) : Int × Int × Int := time.absDate t.abs

/-- `t.Clock()`. -/
def Time.Clock (t : Time) : Int × Int × Int := time.absClock t.abs

/-- `t.AddDate(years, months, days)`. -/
def Time.AddDate (t : Time) (years months days : Int) : Time :=
  let (year, month, day) := t.Date
  let (hour, min, sec) := t.Clock
  time.Date (int64 (year + years)) (int64 (month + months)) (int64 (day + days))
    hour min sec t.nsec t.loc

/-! ### The calendar the claims speak of -/

/-- The number of days of a month, in a leap year or not. -/
def time.monthLength (leap : Bool) (month : Int) : Int :=
  if month = 2 then (if leap then 29 else 28)
  else if month = 4 ∨ month = 6 ∨ month = 9 ∨ month = 11 then 30
  else 31

/-- The number of days of a month of the Gregorian calendar. -/
def time.daysIn (year month : Int) : Int :=
  time.monthLength (time.isLeap year) month

/-- The calendar day after a date (year, month, day): the next day of the month,
or the first day of the next month, or of the next year. -/
def time.nextDay (date : Int × Int × Int) : Int × Int × Int :=
  if date.2.2 < time.daysIn date.1 date.2.1 then (date.1, date.2.1, date.2.2 + 1)
  else if date.2.1 < 12 then (date.1, date.2.1 + 1, 1)
  else (date.1 + 1, 1, 1)

/-- The calendar day before a date: the previous day of the month, or the last
day of the previous month, or of the previous year. -/
def time.prevDay (date : Int × Int × Int) : Int × Int × Int :=
  if 1 < date.2.2 then (date.1, date.2.1, date.2.2 - 1)
  else if 1 < date.2.1 then (date.1, date.2.1 - 1, time.daysIn date.1 (date.2.1 - 1))
  else (date.1 - 1, 12, 31)

/-- The date `days` calendar days after a date (before it, when `days` is
negative), counted one day at a time. -/
def time.addDays (date : Int × Int × Int) (days : Int) : Int × Int × Int :=
  if 0 ≤ days then time.nextDay^[days.toNat] date
  else time.prevDay^[(-days).toNat] date

/-- `appendInt(b, x, width)`: the decimal form of `x`, zero-padded to `width`
digits, after a minus sign when `x` is negative. -/
def time.appendInt (x : Int) (width : Nat) : List Char :=
  let u := x.natAbs
  let ds := Nat.toDigits 10 u
  let digits := List.replicate (width - ds.length) '0' ++ ds
  if x < 0 then '-' :: digits else digits

/-- What `Format` prints for the layout `2006-01-02`: the year on four digits,
the month and the day on two, separated by `-`. -/
def time.isoDate (date : Int × Int × Int) : String :=
  String.mk (time.appendInt date.1 4 ++ '-' :: time.appendInt date.2.1 2 ++
    '-' :: time.appendInt date.2.2 2)

/-- The zone offset in use at the time `t`, in seconds east of UTC. -/
def Time.offset (t : Time) : Int := (t.loc.lookup t.unix).1

/-- The wall clock of `t` read as a Unix time: the Unix time plus the zone
offset. -/
def Time.wall (t : Time) : Int := t.unix + t.offset

/-- The zone found for a wall clock reading `wall` (read as a Unix time) is the
one in use at the time the reading stands for: no zone transition lies between
`wall - offset` and `wall`.  It holds at every reading in a location with one
zone, and in any location at readings away from its transitions. -/
def Location.stableAt (loc : Location) (wall : Int) : Prop :=
  (loc.lookup (wall - (loc.lookup wall).1)).1 = (loc.lookup wall).1

instance Location.decidableStableAt (loc : Location) (wall : Int) :
    Decidable (loc.stableAt wall) :=
  inferInstanceAs (Decidable ((loc.lookup (wall - (loc.lookup wall).1)).1 = (loc.lookup wall).1))

/-! ## The service and its collaborators -/

/-- The data the templates are executed with (`TemplateData`). -/
structure TemplateData where
  CurrentTime : Time
  LastIssue : Issue
  AddDay : Int → Time

/-- Modelled from the spec: the repository contract (`repo.IssueRepository` and
`repo.DiscussionRepository`, declared in the `repo` package).  Each method
returns its `(types.Issue, error)` pair and the world state after the call. -/
structure Repository (σ : Type) where
  FindByURL : String → σ → (Issue × Option GoError) × σ
  FindLastIssueByLabel : Issue → σ → (Issue × Option GoError) × σ
  Create : Issue → σ → (Issue × Option GoError) × σ
  CloseByURL : String → σ → (Issue × Option GoError) × σ

/-- What the service imports and does not define: `url.Parse`, the constant
`repo.LastDiscussionNotFound`, `text/template` (`Parse` of a named template
with the function `AddDateAndFormat` installed, and `Execute`), the layout
language of `time.Time.Format` (`Format t layout` is `t.Format(layout)`), and
the operating-system calls of the guard script (`ioutil.TempFile`,
`WriteString`, `Chmod`, `Close`, `exec.Command("bash", name).Output()`).  `τ` is
the type of a compiled template, a file is known by its name. -/
structure Platform (σ τ : Type) where
  urlParse : String → Except GoError URL
  LastDiscussionNotFound : String
  templateParse : String → (String → Int → String) → String → Except GoError τ
  templateExecute : τ → TemplateData → Except GoError String
  Format : Time → String → String
  TempFile : String → String → σ → (String × Option GoError) × σ
  WriteString : String → String → σ → Option GoError × σ
  Chmod : String → σ → σ
  Close : String → σ → σ
  bashOutput : String → σ → (String × Option GoError) × σ

/-- The struct `issueServiceImpl`. -/
structure issueServiceImpl (σ : Type) where
  ir : Repository σ
  dr : Repository σ
  ct : Time
  closeLastIssue : Bool
  checkBeforeCreateIssue : Option String

/-- `NewIssueService`. -/
def NewIssueService {σ : Type} (issueRepository discussionRepository : Repository σ)
    (currentTime : Time) (closeLastIssue : Bool) (checkBeforeCreateIssue : Option String) :
    issueServiceImpl σ :=
  { ir := issueRepository, dr := discussionRepository, ct := currentTime,
    closeLastIssue := closeLastIssue, checkBeforeCreateIssue := checkBeforeCreateIssue }

/-- Which repository a call went to. -/
inductive Kind where
  | issue
  | discussion
  deriving DecidableEq, Repr

/-- A call made on a collaborator, with its arguments and the error it
returned (`none` is nil). -/
inductive Call where
  | FindByURL (repo : Kind) (url : String) (err : Option GoError)
  | FindLastIssueByLabel (repo : Kind) (template : Issue) (err : Option GoError)
  | Create (repo : Kind) (issue : Issue) (err : Option GoError)
  | CloseByURL (repo : Kind) (url : String) (err : Option GoError)
  | TempFile (err : Option GoError)
  | WriteString (file : String) (text : String) (err : Option GoError)
  | Chmod (file : String)
  | Close (file : String)
  | Bash (file : String) (err : Option GoError)
  deriving DecidableEq, Repr

/-- How a call of `render` or `Create` ends: a value with a nil error, a non-nil
error (the value is then `types.Issue{}`), or a run-time panic. -/
inductive Outcome (α : Type) where
  | ok (value : α)
  | error (err : GoError)
  | panicked
  deriving DecidableEq, Repr

/-- The result of running the service: the outcome, the world state reached and
the calls made, oldest first. -/
structure Run (σ α : Type) where
  out : Outcome α
  world : σ
  calls : List Call

/-- The template function `AddDateAndFormat` of a service
(`func(format string, d int) string { return is.ct.AddDate(0, 0, d).Format(format) }`). -/
def AddDateAndFormat (Format : Time → String → String) (ct : Time) (format : String)
    (d : Int) : String :=
  Format (ct.AddDate 0 0 d) format

/-- The `AddDay` callable of the template data
(`func(d int) time.Time { return is.ct.AddDate(0, 0, d) }`). -/
def AddDay (ct : Time) (d : Int) : Time :=
  ct.AddDate 0 0 d

/-- The footer appended to the rendered body. -/
def createdFrom (templateIssueURL : String) : String :=
  " \n\n _Created from " ++ templateIssueURL ++
    " by [issue-creator](https://github.com/rerost/issue-creator)_"

/-- The method `issueServiceImpl.render`. -/
def render {σ τ : Type} (P : Platform σ τ) (is : issueServiceImpl σ)
    (templateIssueURL : String) (w : σ) : Run σ Issue :=
  let isDisc := isDiscussion P.urlParse templateIssueURL
  let found :=
    if isDisc then is.dr.FindByURL templateIssueURL w
    else is.ir.FindByURL templateIssueURL w
  let w1 := found.2
  let c1 :=
    [Call.FindByURL (if isDisc then Kind.discussion else Kind.issue) templateIssueURL found.1.2]
  match found.1.2 with
  | some err => ⟨.error (errors.WithStack err), w1, c1⟩
  | none =>
    let _templateIssue := found.1.1
    match P.templateParse "title" (AddDateAndFormat P.Format is.ct) _templateIssue.Title with
    | .error err => ⟨.error (errors.Wrap err "Failed to parse title"), w1, c1⟩
    | .ok titleTmpl =>
      match P.templateParse "body" (AddDateAndFormat P.Format is.ct) _templateIssue.Body with
      | .error err => ⟨.error (errors.Wrap err "Failed to parse body"), w1, c1⟩
      | .ok bodyTmpl =>
        if !isDisc && _templateIssue.Labels.length == 0 then
          ⟨.error (errors.New "Requires at least one label"), w1, c1⟩
        else
          let last :=
            if isDisc then is.dr.FindLastIssueByLabel _templateIssue w1
            else is.ir.FindLastIssueByLabel _templateIssue w1
          let w2 := last.2
          let c2 := c1 ++
            [Call.FindLastIssueByLabel (if isDisc then Kind.discussion else Kind.issue)
              _templateIssue last.1.2]
          -- `errors.Cause(err).Error()` is evaluated on the discussion path whatever
          -- `err` is; calling `Error` on a nil error panics.
          let resolved : Option (Issue × Option GoError) :=
            if isDisc then
              match errors.Cause last.1.2 with
              | none => none
              | some cause =>
                if cause.Error = P.LastDiscussionNotFound then
                  some ({ Issue.zero with URL := some "Last Issue is not found" }, none)
                else some last.1
            else some last.1
          match resolved with
          | none => ⟨.panicked, w2, c2⟩
          | some (_, some err) => ⟨.error (errors.Wrap err "Failed to get last issue"), w2, c2⟩
          | some (lastIssue, none) =>
            let data : TemplateData :=
              { CurrentTime := is.ct, LastIssue := lastIssue, AddDay := AddDay is.ct }
            match P.templateExecute titleTmpl data with
            | .error err => ⟨.error (errors.Wrap err "Failed to render title"), w2, c2⟩
            | .ok title =>
              match P.templateExecute bodyTmpl data with
              | .error err => ⟨.error (errors.Wrap err "Failed to render body"), w2, c2⟩
              | .ok body =>
                match lastIssue.URL with
                | none => ⟨.error (errors.New "Invalid last issue passed(empty URL)"), w2, c2⟩
                | some lastURL =>
                  let res : Issue :=
                    { Owner := _templateIssue.Owner
                      Repository := _templateIssue.Repository
                      Title := title
                      Body := body ++ createdFrom templateIssueURL
                      Labels := _templateIssue.Labels
                      URL := none
                      LastIssueURL := lastURL }
                  ⟨.ok res, w2, c2⟩

/-- The guard-script block of `Create` once `checkBeforeCreateIssue` is known
to be non-nil and non-empty: the error that makes `Create` return, if any, the
world state reached and the calls made. -/
def runScript {σ τ : Type} (P : Platform σ τ) (script : String) (w : σ) :
    Option GoError × σ × List Call :=
  let f := P.TempFile "" "issue_creator_*.sh" w
  match f.1.2 with
  | some err => (some (errors.WithStack err), f.2, [Call.TempFile (some err)])
  | none =>
    let name := f.1.1
    let wr := P.WriteString name script f.2
    match wr.1 with
    | some err =>
      (some (errors.WithStack err), wr.2,
        [Call.TempFile none, Call.WriteString name script (some err)])
    | none =>
      let w3 := P.Close name (P.Chmod name wr.2)
      let out := P.bashOutput name w3
      let calls := [Call.TempFile none, Call.WriteString name script none, Call.Chmod name,
        Call.Close name, Call.Bash name out.1.2]
      match out.1.2 with
      | some err => (some (errors.WithStack err), out.2, calls)
      | none => (none, out.2, calls)

/-- The guard stage of `Create`
(`if is.checkBeforeCreateIssue != nil && *is.checkBeforeCreateIssue != "" { ... }`). -/
def runCheckBeforeCreateIssue {σ τ : Type} (P : Platform σ τ) (is : issueServiceImpl σ) (w : σ) :
    Option GoError × σ × List Call :=
  match is.checkBeforeCreateIssue with
  | none => (none, w, [])
  | some script =>
    if script ≠ "" then runScript P script w
    else (none, w, [])

/-- The method `issueServiceImpl.Create`. -/
def Create {σ τ : Type} (P : Platform σ τ) (is : issueServiceImpl σ)
    (templateURL : String) (w : σ) : Run σ Issue :=
  let r := render P is templateURL w
  match r.out with
  | .panicked => ⟨.panicked, r.world, r.calls⟩
  | .error err => ⟨.error (errors.WithStack err), r.world, r.calls⟩
  | .ok i =>
    match runCheckBeforeCreateIssue P is r.world with
    | (some err, w1, c1) => ⟨.error err, w1, r.calls ++ c1⟩
    | (none, w1, c1) =>
      let isDisc := isDiscussion P.urlParse templateURL
      let made := if isDisc then is.dr.Create i w1 else is.ir.Create i w1
      let c2 := r.calls ++ c1 ++
        [Call.Create (if isDisc then Kind.discussion else Kind.issue) i made.1.2]
      match made.1.2 with
      | some err => ⟨.error (errors.WithStack err), made.2, c2⟩
      | none =>
        let created := made.1.1
        if !is.closeLastIssue then ⟨.ok created, made.2, c2⟩
        else
          let closed :=
            if isDisc then is.dr.CloseByURL i.LastIssueURL made.2
            else is.ir.CloseByURL i.LastIssueURL made.2
          let c3 := c2 ++
            [Call.CloseByURL (if isDisc then Kind.discussion else Kind.issue) i.LastIssueURL
              closed.1.2]
          match closed.1.2 with
          | some err => ⟨.error (errors.WithStack err), closed.2, c3⟩
          | none => ⟨.ok created, closed.2, c3⟩

/-- The world in which `Create` makes its repository `Create` call: the one
left by `render` and the guard stage. -/
def worldBeforeCreate {σ τ : Type} (P : Platform σ τ) (is : issueServiceImpl σ)
    (templateURL : String) (w : σ) : σ :=
  (runCheckBeforeCreateIssue P is (render P is templateURL w).world).2.1

/-- The calls `Create` has made when it reaches its repository `Create` call:
those of `render` and of the guard stage. -/
def callsBeforeCreate {σ τ : Type} (P : Platform σ τ) (is : issueServiceImpl σ)
    (templateURL : String) (w : σ) : List Call :=
  (render P is templateURL w).calls ++
    (runCheckBeforeCreateIssue P is (render P is templateURL w).world).2.2

/-- The method `issueServiceImpl.Render`. -/
def Render {σ τ : Type} (P : Platform σ τ) (is : issueServiceImpl σ)
    (templateURL : String) (w : σ) : Run σ Issue :=
  render P is templateURL w

/-! ## A concrete world for evaluating the service

Instances of the collaborators on which `render` and `Create` can be computed.
The world state is the list of tickets created so far. -/

/-- A URL parser for evaluation.  An optional `https://github.com` followed by
a rooted path of letters, digits, `/`, `-`, `_` and `.` parses to that path, as
it does with `url.Parse`; this instance rejects every other string. -/
def sampleURLParse (s : String) : Except GoError URL :=
  let host := "https://github.com".data
  let rest := if host.isPrefixOf s.data then s.data.drop host.length else s.data
  if rest.head? = some '/' ∧
      rest.all (fun c => c.isAlphanum || c == '/' || c == '-' || c == '_' || c == '.') then
    .ok { Path := String.mk rest }
  else .error (.fundamental ("parse " ++ s ++ ": not a rooted path"))

/-- Whether the right delimiter of an action occurs in the text. -/
def closesAction : List Char → Bool
  | '}' :: '}' :: _ => true
  | _ :: rest => closesAction rest
  | [] => false

/-- A template text is `none` when it has no left delimiter, and otherwise
`some b` with `b` telling whether a right delimiter follows the first one. -/
def firstAction : List Char → Option Bool
  | '{' :: '{' :: rest => some (closesAction rest)
  | _ :: rest => firstAction rest
  | [] => none

/-- A template engine for evaluation.  A text without a left delimiter is
literal text: it compiles and executes to itself; a text whose first left
delimiter is never closed does not compile (`unclosed action`), both as with
`text/template`.  This instance does not interpret actions and reports them as
errors. -/
def sampleTemplateParse (name : String) (_ : String → Int → String) (text : String) :
    Except GoError String :=
  match firstAction text.data with
  | none => .ok text
  | some false => .error (.fundamental ("template: " ++ name ++ ":1: unclosed action"))
  | some true => .error (.fundamental ("template: " ++ name ++ ":1: action not interpreted"))

/-- The layout loop of the formatter for evaluation: the layout elements `2006`
(year), `01` (zero-padded month) and `02` (zero-padded day) are printed as
`Time.Format` prints them, every other character of the layout is copied. -/
def sampleFormatDate (year month day : Int) : List Char → List Char
  | '2' :: '0' :: '0' :: '6' :: rest =>
    time.appendInt year 4 ++ sampleFormatDate year month day rest
  | '0' :: '1' :: rest => time.appendInt month 2 ++ sampleFormatDate year month day rest
  | '0' :: '2' :: rest => time.appendInt day 2 ++ sampleFormatDate year month day rest
  | c :: rest => c :: sampleFormatDate year month day rest
  | [] => []

/-- A formatter for evaluation.  It agrees with `Time.Format` on the layouts
that are made of the elements `2006`, `01`, `02` and of text holding no other
layout element, such as `2006-01-02`; it is not a model of the other layouts. -/
def sampleFormat (t : Time) (layout : String) : String :=
  String.mk (sampleFormatDate t.Date.1 t.Date.2.1 t.Date.2.2 layout.data)

/-- A platform for evaluation: the guard script always ends with `guard`
(`none` is exit status zero), files are written without error. -/
def samplePlatform (guard : Option GoError) : Platform (List Issue) String where
  urlParse := sampleURLParse
  LastDiscussionNotFound := "last discussion not found"
  templateParse := sampleTemplateParse
  templateExecute := fun t _ => .ok t
  Format := sampleFormat
  TempFile := fun _ _ w => (("/tmp/issue_creator_1.sh", none), w)
  WriteString := fun _ _ w => (none, w)
  Chmod := fun _ w => w
  Close := fun _ w => w
  bashOutput := fun _ w => (("", guard), w)

/-- A repository for evaluation: `FindByURL` answers `template`,
`FindLastIssueByLabel` answers `last`, `Create` fails with `createErr` or
stores the ticket and returns it with a URL, `CloseByURL` ends with `closeErr`. -/
def sampleRepository (template last : Issue × Option GoError)
    (createErr closeErr : Option GoError) : Repository (List Issue) where
  FindByURL := fun _ w => (template, w)
  FindLastIssueByLabel := fun _ w => (last, w)
  Create := fun i w =>
    match createErr with
    | some err => ((Issue.zero, some err), w)
    | none => (({ i with URL := some "https://github.com/o/r/issues/100" }, none), w ++ [i])
  CloseByURL := fun _ w => ((Issue.zero, closeErr), w)

/-- A repository that is never expected to be called: every method fails. -/
def unusedRepository : Repository (List Issue) :=
  sampleRepository (Issue.zero, some (.fundamental "unused")) (Issue.zero, some (.fundamental "unused"))
    (some (.fundamental "unused")) (some (.fundamental "unused"))

/-- A template ticket with literal title and body. -/
def weeklyTemplate (labels : List String) : Issue :=
  { Owner := "o", Repository := "r", Title := "Weekly report", Body := "- [ ] review",
    Labels := labels, URL := some "https://github.com/o/r/issues/7", LastIssueURL := "" }

/-- A prior ticket. -/
def lastWeek : Issue :=
  { Owner := "o", Repository := "r", Title := "Weekly report", Body := "- [x] review",
    Labels := ["weekly"], URL := some "https://github.com/o/r/issues/6", LastIssueURL := "" }

/-- A location with one zone transition, the start of daylight saving time in
America/Sao_Paulo on 2018-11-04: at the Unix time 1541300400, local midnight,
the offset goes from -03:00 to -02:00 and the wall clock from 00:00 to 01:00. -/
def sampleZone : Location :=
  { lookup := fun u =>
      if u < 1541300400 then (-10800, -9223372036854775808, 1541300400)
      else (-7200, 1541300400, 9223372036854775807) }

/-- The reference time 2024-01-20 10:30:05 UTC. -/
def sampleTime : Time := { unix := 1705746605, nsec := 0, loc := time.UTC }

/-- The local reference time 2024-03-02 23:59:59.999999999 -02:00 in
`sampleZone`. -/
def sampleLocalTime : Time := { unix := 1709431199, nsec := 999999999, loc := sampleZone }

/-- The local reference time 2018-11-03 00:30:00 -03:00 in `sampleZone`, one day
before a wall clock reading that the transition skips. -/
def sampleMidnightTime : Time := { unix := 1541215800, nsec := 0, loc := sampleZone }

/-- The placeholder prior ticket of the discussion path
(`types.Issue{URL: &url}` with `url := "Last Issue is not found"`). -/
def placeholderIssue : Issue :=
  { Issue.zero with URL := some "Last Issue is not found" }

/-- The repository kind `render` and `Create` select for a template URL. -/
def kindOf (urlParse : String → Except GoError URL) (templateURL : String) : Kind :=
  if isDiscussion urlParse templateURL then Kind.discussion else Kind.issue

/-- The repository of a service that serves the given kind. -/
def issueServiceImpl.repo {σ : Type} (is : issueServiceImpl σ) : Kind → Repository σ
  | .issue => is.ir
  | .discussion => is.dr

/-- A call that writes to a repository: `Create` or `CloseByURL`. -/
def Call.isWrite : Call → Bool
  | .Create _ _ _ => true
  | .CloseByURL _ _ _ => true
  | _ => false

/-- A discussion service whose prior-ticket lookup ends with `last`. -/
def discussionService (last : Issue × Option GoError) (closeLastIssue : Bool)
    (closeErr : Option GoError) : issueServiceImpl (List Issue) :=
  NewIssueService unusedRepository
    (sampleRepository (weeklyTemplate [], none) last none closeErr)
    sampleTime closeLastIssue none

/-- An issue service with the given template and prior-ticket lookup result. -/
def issueService (template : Issue) (last : Issue × Option GoError) (closeLastIssue : Bool)
    (script : Option String) : issueServiceImpl (List Issue) :=
  NewIssueService (sampleRepository (template, none) last none none) unusedRepository
    sampleTime closeLastIssue script

/-- An issue service with a guard script, configured to close the prior issue. -/
def guardedService : issueServiceImpl (List Issue) :=
  issueService (weeklyTemplate ["weekly"]) (lastWeek, none) true (some "exit 1")

/-- An issue service, configured to close the prior issue, whose repository
refuses to close. -/
def closeFailsService : issueServiceImpl (List Issue) :=
  NewIssueService
    (sampleRepository (weeklyTemplate ["weekly"], none) (lastWeek, none) none
      (some (errors.New "403 Forbidden")))
    unusedRepository sampleTime true none

/-- The ticket rendered from `weeklyTemplate ["weekly"]` and `lastWeek` at the
URL `https://github.com/o/r/issues/7`. -/
def renderedWeekly : Issue :=
  { Owner := "o", Repository := "r", Title := "Weekly report",
    Body := "- [ ] review \n\n _Created from https://github.com/o/r/issues/7 by [issue-creator](https://github.com/rerost/issue-creator)_",
    Labels := ["weekly"], URL := none, LastIssueURL := "https://github.com/o/r/issues/6" }

/-! ## Theorems -/

/-! ### Stages of `render` and `Create` -/

/-- The calls of `render` are reads: none is a repository `Create` or `CloseByURL`. -/
theorem render_calls_read {σ τ : Type} (P : Platform σ τ) (is : issueServiceImpl σ)
    (u : String) (w : σ) : ∀ c ∈ (render P is u w).calls, c.isWrite = false := by
  intro c hc
  unfold render at hc
  simp only at hc
  repeat' split at hc
  all_goals simp only [List.mem_cons, List.mem_append, List.mem_singleton, List.not_mem_nil, or_false] at hc
  all_goals first
    | (subst hc; rfl)
    | (rcases hc with hc | hc <;> subst hc <;> rfl)

/-- The calls of the guard stage are operating-system calls, not repository writes. -/
theorem runCheck_calls_read {σ τ : Type} (P : Platform σ τ) (is : issueServiceImpl σ)
    (w : σ) : ∀ c ∈ (runCheckBeforeCreateIssue P is w).2.2, c.isWrite = false := by
  intro c hc
  unfold runCheckBeforeCreateIssue runScript at hc
  simp only at hc
  repeat' split at hc
  all_goals simp only [List.mem_cons, List.mem_append, List.mem_singleton, List.not_mem_nil,
    or_false] at hc
  all_goals first
    | exact absurd hc id
    | (subst hc; rfl)
    | (rcases hc with hc | hc <;> subst hc <;> rfl)
    | (rcases hc with hc | hc | hc | hc | hc <;> subst hc <;> rfl)

/-- A configured guard stage that passes has run the script, which ended with a
nil error. -/
theorem runCheck_passed_bash {σ τ : Type} (P : Platform σ τ) (is : issueServiceImpl σ)
    (w : σ) (script : String) (hs : is.checkBeforeCreateIssue = some script) (hne : script ≠ "")
    (h : (runCheckBeforeCreateIssue P is w).1 = none) :
    ∃ file, Call.Bash file none ∈ (runCheckBeforeCreateIssue P is w).2.2 := by
  unfold runCheckBeforeCreateIssue runScript at h ⊢
  simp only [hs, hne, ne_eq, not_false_eq_true, if_true] at h ⊢
  repeat' split at h
  all_goals try (simp at h; done)
  exact ⟨(P.TempFile "" "issue_creator_*.sh" w).1.1, by simp_all⟩

/-- The `Create` branch on the URL kind is the `Create` of the selected repository. -/
theorem repo_Create_eq {σ : Type} (is : issueServiceImpl σ) (b : Bool) (i : Issue) (w : σ) :
    (if b = true then is.dr.Create i w else is.ir.Create i w) =
      (is.repo (if b = true then Kind.discussion else Kind.issue)).Create i w := by
  cases b <;> rfl

/-- The `CloseByURL` branch on the URL kind is the `CloseByURL` of the selected
repository. -/
theorem repo_CloseByURL_eq {σ : Type} (is : issueServiceImpl σ) (b : Bool) (url : String)
    (w : σ) :
    (if b = true then is.dr.CloseByURL url w else is.ir.CloseByURL url w) =
      (is.repo (if b = true then Kind.discussion else Kind.issue)).CloseByURL url w := by
  cases b <;> rfl

/-- The stages of `Create`: the ways a run can end, with the result, world and
calls of each. -/
theorem Create_cases {σ τ : Type} (P : Platform σ τ) (is : issueServiceImpl σ)
    (u : String) (w : σ) :
    let r := render P is u w
    let k := kindOf P.urlParse u
    (r.out = .panicked ∧ Create P is u w = ⟨.panicked, r.world, r.calls⟩) ∨
    (∃ e, r.out = .error e ∧ Create P is u w = ⟨.error (errors.WithStack e), r.world, r.calls⟩) ∨
    (∃ i, r.out = .ok i ∧
      let g := runCheckBeforeCreateIssue P is r.world
      ((∃ e, g.1 = some e ∧ Create P is u w = ⟨.error e, g.2.1, r.calls ++ g.2.2⟩) ∨
       (g.1 = none ∧
        let made := (is.repo k).Create i g.2.1
        let c2 := r.calls ++ g.2.2 ++ [Call.Create k i made.1.2]
        ((∃ e, made.1.2 = some e ∧
            Create P is u w = ⟨.error (errors.WithStack e), made.2, c2⟩) ∨
         (made.1.2 = none ∧ is.closeLastIssue = false ∧
            Create P is u w = ⟨.ok made.1.1, made.2, c2⟩) ∨
         (made.1.2 = none ∧ is.closeLastIssue = true ∧
            let closed := (is.repo k).CloseByURL i.LastIssueURL made.2
            let c3 := c2 ++ [Call.CloseByURL k i.LastIssueURL closed.1.2]
            ((∃ e, closed.1.2 = some e ∧
                Create P is u w = ⟨.error (errors.WithStack e), closed.2, c3⟩) ∨
             (closed.1.2 = none ∧ Create P is u w = ⟨.ok made.1.1, closed.2, c3⟩))))))) := by
  intro r k
  cases hr : r.out with
  | panicked => left; exact ⟨rfl, by simp only [r] at hr; simp [Create, hr]⟩
  | error e => right; left; exact ⟨e, rfl, by simp only [r] at hr; simp [Create, hr]⟩
  | ok i =>
    right; right
    refine ⟨i, rfl, ?_⟩
    simp only [r, k, kindOf] at hr ⊢
    rcases hg : runCheckBeforeCreateIssue P is (render P is u w).world with ⟨ge, gw, gc⟩
    cases ge with
    | some e => left; exact ⟨e, rfl, by simp [Create, hr, hg]⟩
    | none =>
      right
      refine ⟨rfl, ?_⟩
      simp only
      rcases hm : (is.repo (if isDiscussion P.urlParse u = true then Kind.discussion
        else Kind.issue)).Create i gw with ⟨⟨mi, me⟩, mw⟩
      cases me with
      | some e =>
        left; exact ⟨e, rfl, by simp [Create, hr, hg, repo_Create_eq, hm]⟩
      | none =>
        right
        cases hcl : is.closeLastIssue with
        | false =>
          left; exact ⟨rfl, rfl, by simp [Create, hr, hg, repo_Create_eq, hm, hcl]⟩
        | true =>
          right; refine ⟨rfl, rfl, ?_⟩
          simp only
          rcases hc : (is.repo (if isDiscussion P.urlParse u = true then Kind.discussion
            else Kind.issue)).CloseByURL i.LastIssueURL mw with ⟨⟨ci, ce⟩, cw⟩
          cases ce with
          | some e =>
            left
            exact ⟨e, rfl, by
              simp [Create, hr, hg, repo_Create_eq, repo_CloseByURL_eq, hm, hcl, hc]⟩
          | none =>
            right
            exact ⟨rfl, by
              simp [Create, hr, hg, repo_Create_eq, repo_CloseByURL_eq, hm, hcl, hc]⟩

/-- Every call of a `Create` run that is a repository `Create` was made with the
rendered ticket on the repository of the URL's kind, after the guard passed. -/
theorem Create_call_inv {σ τ : Type} (P : Platform σ τ) (is : issueServiceImpl σ)
    (u : String) (w : σ) (k : Kind) (i : Issue) (err : Option GoError)
    (h : Call.Create k i err ∈ (Create P is u w).calls) :
    k = kindOf P.urlParse u ∧ (render P is u w).out = .ok i ∧
    (runCheckBeforeCreateIssue P is (render P is u w).world).1 = none ∧
    err = ((is.repo k).Create i (runCheckBeforeCreateIssue P is (render P is u w).world).2.1).1.2 := by
  have hr := render_calls_read P is u w
  have hg := runCheck_calls_read P is (render P is u w).world
  have nr : Call.Create k i err ∉ (render P is u w).calls := fun hm => by
    simpa [Call.isWrite] using hr _ hm
  have ng : Call.Create k i err ∉ (runCheckBeforeCreateIssue P is (render P is u w).world).2.2 :=
    fun hm => by simpa [Call.isWrite] using hg _ hm
  rcases Create_cases P is u w with ⟨_, hc⟩ | ⟨e, _, hc⟩ | ⟨j, hj, hc⟩
  · rw [hc] at h; exact absurd h nr
  · rw [hc] at h; exact absurd h nr
  · rcases hc with ⟨e, _, hc⟩ | ⟨hpass, hc⟩
    · rw [hc] at h
      simp only [List.mem_append] at h
      rcases h with h | h
      · exact absurd h nr
      · exact absurd h ng
    · have key : Call.Create k i err ∈ (render P is u w).calls ++
            (runCheckBeforeCreateIssue P is (render P is u w).world).2.2 ++
            [Call.Create (kindOf P.urlParse u) j
              ((is.repo (kindOf P.urlParse u)).Create j
                (runCheckBeforeCreateIssue P is (render P is u w).world).2.1).1.2] ∨
          Call.Create k i err ∈ [Call.CloseByURL (kindOf P.urlParse u) j.LastIssueURL
              ((is.repo (kindOf P.urlParse u)).CloseByURL j.LastIssueURL
                ((is.repo (kindOf P.urlParse u)).Create j
                  (runCheckBeforeCreateIssue P is (render P is u w).world).2.1).2).1.2] := by
        rcases hc with ⟨e, _, hc⟩ | ⟨_, _, hc⟩ | ⟨_, _, ⟨e, _, hc⟩ | ⟨_, hc⟩⟩
        · rw [hc] at h; exact Or.inl h
        · rw [hc] at h; exact Or.inl h
        · rw [hc] at h; exact List.mem_append.mp h
        · rw [hc] at h; exact List.mem_append.mp h
      rcases key with key | key
      · simp only [List.mem_append, List.mem_singleton] at key
        rcases key with (key | key) | key
        · exact absurd key nr
        · exact absurd key ng
        · injection key with h1 h2 h3
          subst h1 h2
          exact ⟨rfl, hj, hpass, h3⟩
      · simp at key

/-- Every `CloseByURL` call of a `Create` run follows a repository `Create` call
that returned a nil error, in a service configured to close the prior ticket. -/
theorem Create_close_inv {σ τ : Type} (P : Platform σ τ) (is : issueServiceImpl σ)
    (u : String) (w : σ) (k : Kind) (url : String) (err : Option GoError)
    (h : Call.CloseByURL k url err ∈ (Create P is u w).calls) :
    is.closeLastIssue = true ∧ ∃ i, Call.Create k i none ∈ (Create P is u w).calls ∧
      url = i.LastIssueURL ∧
      (∀ e, err = some e → (Create P is u w).out = .error (errors.WithStack e)) ∧
      (err = none → (Create P is u w).out = .ok ((is.repo k).Create i
        (runCheckBeforeCreateIssue P is (render P is u w).world).2.1).1.1) := by
  have hr := render_calls_read P is u w
  have hg := runCheck_calls_read P is (render P is u w).world
  have nr : Call.CloseByURL k url err ∉ (render P is u w).calls := fun hm => by
    simpa [Call.isWrite] using hr _ hm
  have ng : Call.CloseByURL k url err ∉
      (runCheckBeforeCreateIssue P is (render P is u w).world).2.2 :=
    fun hm => by simpa [Call.isWrite] using hg _ hm
  rcases Create_cases P is u w with ⟨_, hc⟩ | ⟨e, _, hc⟩ | ⟨j, hj, hc⟩
  · rw [hc] at h; exact absurd h nr
  · rw [hc] at h; exact absurd h nr
  · rcases hc with ⟨e, _, hc⟩ | ⟨hpass, hc⟩
    · rw [hc] at h
      simp only [List.mem_append] at h
      rcases h with h | h
      · exact absurd h nr
      · exact absurd h ng
    · rcases hc with ⟨e, _, hc⟩ | ⟨_, _, hc⟩ | ⟨hmade, hcl, ⟨e, he, hc⟩ | ⟨he, hc⟩⟩
      · rw [hc] at h
        simp only [List.mem_append, List.mem_singleton] at h
        rcases h with (h | h) | h
        · exact absurd h nr
        · exact absurd h ng
        · cases h
      · rw [hc] at h
        simp only [List.mem_append, List.mem_singleton] at h
        rcases h with (h | h) | h
        · exact absurd h nr
        · exact absurd h ng
        · cases h
      · rw [hc] at h ⊢
        simp only [List.mem_append, List.mem_singleton] at h
        rcases h with ((h | h) | h) | h
        · exact absurd h nr
        · exact absurd h ng
        · cases h
        · injection h with h1 h2 h3
          subst h1 h2 h3
          refine ⟨hcl, j, ?_, rfl, ?_, ?_⟩
          · simp [hmade]
          · simp [he]
          · simp [he]
      · rw [hc] at h ⊢
        simp only [List.mem_append, List.mem_singleton] at h
        rcases h with ((h | h) | h) | h
        · exact absurd h nr
        · exact absurd h ng
        · cases h
        · injection h with h1 h2 h3
          subst h1 h2 h3
          refine ⟨hcl, j, ?_, rfl, ?_, ?_⟩
          · simp [hmade]
          · simp [he]
          · simp [he]

/-- The calls of `render` are repository lookups: none runs the guard script. -/
theorem render_calls_no_bash {σ τ : Type} (P : Platform σ τ) (is : issueServiceImpl σ)
    (u : String) (w : σ) (file : String) (err : Option GoError) :
    Call.Bash file err ∉ (render P is u w).calls := by
  intro hc
  unfold render at hc
  simp only at hc
  repeat' split at hc
  all_goals simp at hc

/-- A guard script that ends with an error makes the guard stage fail with that
error under a stack wrapper. -/
theorem runCheck_bash_failed {σ τ : Type} (P : Platform σ τ) (is : issueServiceImpl σ)
    (w : σ) (file : String) (e : GoError)
    (h : Call.Bash file (some e) ∈ (runCheckBeforeCreateIssue P is w).2.2) :
    (runCheckBeforeCreateIssue P is w).1 = some (errors.WithStack e) := by
  unfold runCheckBeforeCreateIssue runScript at h ⊢
  simp only at h ⊢
  repeat' split at h
  all_goals simp at h
  all_goals simp_all

theorem render_ok_last {σ τ : Type} (P : Platform σ τ) (is : issueServiceImpl σ)
    (u : String) (w : σ) (res : Issue) (h : (render P is u w).out = .ok res) :
    ∃ (tt bt : τ) (lastIssue : Issue) (title body lastURL : String),
      ((is.repo (kindOf P.urlParse u)).FindByURL u w).1.2 = none ∧
      P.templateParse "title" (AddDateAndFormat P.Format is.ct)
        ((is.repo (kindOf P.urlParse u)).FindByURL u w).1.1.Title = .ok tt ∧
      P.templateParse "body" (AddDateAndFormat P.Format is.ct)
        ((is.repo (kindOf P.urlParse u)).FindByURL u w).1.1.Body = .ok bt ∧
      P.templateExecute tt
        { CurrentTime := is.ct, LastIssue := lastIssue, AddDay := AddDay is.ct } = .ok title ∧
      P.templateExecute bt
        { CurrentTime := is.ct, LastIssue := lastIssue, AddDay := AddDay is.ct } = .ok body ∧
      lastIssue.URL = some lastURL ∧
      res =
        { Owner := ((is.repo (kindOf P.urlParse u)).FindByURL u w).1.1.Owner
          Repository := ((is.repo (kindOf P.urlParse u)).FindByURL u w).1.1.Repository
          Title := title
          Body := body ++ createdFrom u
          Labels := ((is.repo (kindOf P.urlParse u)).FindByURL u w).1.1.Labels
          URL := none
          LastIssueURL := lastURL } ∧
      (isDiscussion P.urlParse u = true → lastIssue = placeholderIssue) ∧
      (isDiscussion P.urlParse u = false →
        (is.ir.FindLastIssueByLabel ((is.repo (kindOf P.urlParse u)).FindByURL u w).1.1
          ((is.repo (kindOf P.urlParse u)).FindByURL u w).2).1 = (lastIssue, none)) ∧
      (render P is u w).world =
        ((is.repo (kindOf P.urlParse u)).FindLastIssueByLabel
          ((is.repo (kindOf P.urlParse u)).FindByURL u w).1.1
          ((is.repo (kindOf P.urlParse u)).FindByURL u w).2).2 := by
  have hw : (render P is u w).world =
        ((is.repo (kindOf P.urlParse u)).FindLastIssueByLabel
          ((is.repo (kindOf P.urlParse u)).FindByURL u w).1.1
          ((is.repo (kindOf P.urlParse u)).FindByURL u w).2).2 := by
    unfold render at h ⊢
    cases hd : isDiscussion P.urlParse u <;>
      simp only [hd, kindOf, issueServiceImpl.repo, if_true, if_false, Bool.false_eq_true] at h ⊢
    all_goals
      repeat' split at h
      all_goals try (simp at h; done)
    all_goals simp_all
  unfold render at h
  cases hd : isDiscussion P.urlParse u <;>
    simp only [hd, kindOf, issueServiceImpl.repo, if_true, if_false, Bool.false_eq_true] at h hw ⊢
  · repeat' split at h
    all_goals try (simp at h; done)
    simp only [Outcome.ok.injEq] at h
    rename_i hres _ _ _ _ _ _ _ _ _
    simp only [Option.some.injEq] at hres
    exact ⟨_, _, _, _, _, _, by assumption, by assumption, by assumption, by assumption,
      by assumption, by assumption, h.symm, fun hf => hf.elim, fun _ => hres, hw⟩
  · repeat' split at h
    all_goals try (simp at h; done)
    simp only [Outcome.ok.injEq] at h
    rename_i hres _ _ _ _ _ _ _ _ _
    refine ⟨_, _, _, _, _, _, by assumption, by assumption, by assumption, by assumption,
      by assumption, by assumption, h.symm, fun _ => ?_, fun hf => (by cases hf), hw⟩
    revert hres
    cases hc : errors.Cause (is.dr.FindLastIssueByLabel (is.dr.FindByURL u w).1.1
        (is.dr.FindByURL u w).2).1.2 with
    | none => intro hres; cases hres
    | some cause =>
      simp only
      split
      · intro hres
        simp only [Option.some.injEq, Prod.mk.injEq, and_true] at hres
        rw [← hres]; rfl
      · intro hres
        simp only [Option.some.injEq] at hres
        rw [hres] at hc
        simp [errors.Cause] at hc

/-! ### Calendar arithmetic -/

/-- An integer in the `int64` range is its own `int64` value. -/
theorem int64_eq (x : Int) (h0 : -9223372036854775808 ≤ x) (h1 : x < 9223372036854775808) :
    int64 x = x := by
  unfold int64; omega

/-- An integer in the `uint64` range is its own `uint64` value. -/
theorem uint64_eq (x : Int) (h0 : 0 ≤ x) (h1 : x < 18446744073709551616) :
    uint64 x = x := by
  unfold uint64; omega

/-- The number of days of a year. -/
theorem daysPer400Years_eq : time.daysPer400Years = 146097 := rfl
theorem daysPer100Years_eq : time.daysPer100Years = 36524 := rfl
theorem daysPer4Years_eq : time.daysPer4Years = 1461 := rfl

/-- Within the range of the calendar, `daysSinceEpoch` is the closed form
`365 Y + Y/4 - Y/100 + Y/400` of the year count `Y` from the absolute zero
year. -/
theorem daysSinceEpoch_exact (year : Int) (h0 : 0 ≤ year - time.absoluteZeroYear)
    (h1 : year - time.absoluteZeroYear ≤ 1000000000000000) :
    time.daysSinceEpoch year =
      365 * (year - time.absoluteZeroYear) + (year - time.absoluteZeroYear) / 4 -
        (year - time.absoluteZeroYear) / 100 + (year - time.absoluteZeroYear) / 400 := by
  generalize hY : year - time.absoluteZeroYear = Y at *
  unfold time.daysSinceEpoch
  rw [hY]
  simp only [daysPer400Years_eq, daysPer100Years_eq, daysPer4Years_eq]
  rw [int64_eq Y (by omega) (by omega), uint64_eq Y (by omega) (by omega)]
  generalize ha : Y / 400 = a
  generalize hb : (Y - 400 * a) / 100 = b
  generalize hc : (Y - 400 * a - 100 * b) / 4 = c
  rw [uint64_eq (146097 * a) (by omega) (by omega)]
  rw [uint64_eq (146097 * a + 36524 * b) (by omega) (by omega)]
  rw [uint64_eq (146097 * a + 36524 * b + 1461 * c) (by omega) (by omega)]
  rw [uint64_eq (146097 * a + 36524 * b + 1461 * c + 365 * (Y - 400 * a - 100 * b - 4 * c))
    (by omega) (by omega)]
  omega

/-- The cycle arithmetic of `absDate`: the year count and the day of the year
it computes from a day number count back to that day number. -/
theorem year_day_arith (D q n n4 m p p4 Y yday : Int)
    (hq : q = D / 146097) (hn : n = (D - 146097 * q) / 36524) (hn4 : n4 = n / 4)
    (hm : m = (D - 146097 * q - 36524 * (n - n4)) / 1461)
    (hp : p = (D - 146097 * q - 36524 * (n - n4) - 1461 * m) / 365) (hp4 : p4 = p / 4)
    (hY : Y = 400 * q + 100 * (n - n4) + 4 * m + (p - p4))
    (hyd : yday = D - 146097 * q - 36524 * (n - n4) - 1461 * m - 365 * (p - p4)) :
    365 * Y + Y / 4 - Y / 100 + Y / 400 + yday = D ∧
    0 ≤ yday ∧ yday ≤ 365 ∧
    (yday = 365 → (Y + 1) % 4 = 0 ∧ ((Y + 1) % 100 ≠ 0 ∨ (Y + 1) % 400 = 0)) ∧
    (0 ≤ D → 0 ≤ Y ∧ Y ≤ D) := by
  have hnb : 0 ≤ n ∧ n ≤ 4 := by omega
  have hn' : 0 ≤ n - n4 ∧ n - n4 ≤ 3 := by omega
  have hr2 : 0 ≤ D - 146097 * q - 36524 * (n - n4) ∧
      D - 146097 * q - 36524 * (n - n4) ≤ 36524 := by omega
  have hmb : 0 ≤ m ∧ m ≤ 24 := by omega
  have hpb : 0 ≤ p ∧ p ≤ 4 := by omega
  have hp' : 0 ≤ p - p4 ∧ p - p4 ≤ 3 := by omega
  have h400 : Y / 400 = q := by omega
  have h100 : Y / 100 = 4 * q + (n - n4) := by omega
  have h4 : Y / 4 = 100 * q + 25 * (n - n4) + m := by omega
  refine ⟨by omega, by omega, by omega, ?_, ?_⟩
  · intro h365
    omega
  · intro hD
    omega

/-- The year and day of year computed by `absDate` count back to the day number. -/
theorem absYearDay_spec (D : Int) (h0 : 0 ≤ D) (h1 : D ≤ 1000000000000000) :
    0 ≤ (time.absYearDay D).1 - time.absoluteZeroYear ∧
    (time.absYearDay D).1 - time.absoluteZeroYear ≤ D ∧
    365 * ((time.absYearDay D).1 - time.absoluteZeroYear) +
      ((time.absYearDay D).1 - time.absoluteZeroYear) / 4 -
      ((time.absYearDay D).1 - time.absoluteZeroYear) / 100 +
      ((time.absYearDay D).1 - time.absoluteZeroYear) / 400 + (time.absYearDay D).2 = D ∧
    0 ≤ (time.absYearDay D).2 ∧ (time.absYearDay D).2 ≤ 365 ∧
    ((time.absYearDay D).2 = 365 → time.isLeap (time.absYearDay D).1 = true) := by
  simp only [time.absYearDay, daysPer400Years_eq, daysPer100Years_eq, daysPer4Years_eq]
  generalize hq : D / 146097 = q
  generalize hn : (D - 146097 * q) / 36524 = n
  generalize hn4 : n / 4 = n4
  generalize hm : (D - 146097 * q - 36524 * (n - n4)) / 1461 = m
  generalize hp : (D - 146097 * q - 36524 * (n - n4) - 1461 * m) / 365 = p
  generalize hp4 : p / 4 = p4
  generalize hY : 400 * q + 100 * (n - n4) + 4 * m + (p - p4) = Y
  generalize hyd : D - 146097 * q - 36524 * (n - n4) - 1461 * m - 365 * (p - p4) = yday
  obtain ⟨k1, k2, k3, k4, k5⟩ := year_day_arith D q n n4 m p p4 Y yday hq.symm hn.symm hn4.symm
    hm.symm hp.symm hp4.symm hY.symm hyd.symm
  obtain ⟨k6, k7⟩ := k5 h0
  clear hq hn hn4 hm hp hp4 hY hyd k5
  have e1 : int64 Y = Y := int64_eq Y (by omega) (by omega)
  rw [e1]
  have hZ : time.absoluteZeroYear = -292277022399 := rfl
  rw [hZ]
  have e2 : int64 (Y + -292277022399) = Y + -292277022399 :=
    int64_eq _ (by omega) (by omega)
  rw [e2]
  simp only [add_sub_cancel_right]
  refine ⟨k6, k7, k1, k2, k3, ?_⟩
  intro h
  have := k4 h
  simp only [time.isLeap, Bool.and_eq_true, Bool.or_eq_true, beq_iff_eq,
    bne_iff_ne, ne_eq]
  omega

/-- The days before a year grow by a whole year from one year to any later
one. -/
theorem epoch_days_lt (A B : Int) (h : A < B) :
    365 * A + A / 4 - A / 100 + A / 400 + 365 ≤ 365 * B + B / 4 - B / 100 + B / 400 ∧
    ((A + 1) % 4 = 0 ∧ ((A + 1) % 100 ≠ 0 ∨ (A + 1) % 400 = 0) →
      365 * A + A / 4 - A / 100 + A / 400 + 366 ≤ 365 * B + B / 4 - B / 100 + B / 400) := by
  constructor
  · omega
  · intro hl
    omega

set_option maxRecDepth 100000 in
/-- The month and day computed from the day of the year, for every day of a
year: they are a date of the calendar and count back to the day of the year. -/
theorem monthDayOf_table : ∀ L : Bool, ∀ k : Nat, k < 366 →
    (k : Int) < 365 + (if L then 1 else 0) →
    1 ≤ (time.monthDayOf L k).1 ∧ (time.monthDayOf L k).1 ≤ 12 ∧
    1 ≤ (time.monthDayOf L k).2 ∧
    (time.monthDayOf L k).2 ≤ time.monthLength L (time.monthDayOf L k).1 ∧
    time.daysBefore.getD ((time.monthDayOf L k).1 - 1).toNat 0 +
      (if L = true ∧ (time.monthDayOf L k).1 ≥ 3 then 1 else 0) +
      ((time.monthDayOf L k).2 - 1) = k := by
  decide

set_option maxRecDepth 100000 in
/-- From one day of a year to the next, the month and day computed move to the
next day of the month, or to the first day of the next month. -/
theorem monthDayOf_succ_table : ∀ L : Bool, ∀ k : Nat, k < 366 →
    (k : Int) + 1 < 365 + (if L then 1 else 0) →
    time.monthDayOf L ((k : Int) + 1) =
      (if (time.monthDayOf L k).2 < time.monthLength L (time.monthDayOf L k).1 then
        ((time.monthDayOf L k).1, (time.monthDayOf L k).2 + 1)
      else ((time.monthDayOf L k).1 + 1, 1)) ∧
    ((time.monthDayOf L k).2 < time.monthLength L (time.monthDayOf L k).1 ∨
      (time.monthDayOf L k).1 < 12) := by
  decide

/-- The first day of a year is January 1 and the last is December 31. -/
theorem monthDayOf_ends : ∀ L : Bool,
    time.monthDayOf L 0 = (1, 1) ∧
    time.monthDayOf L (364 + (if L then 1 else 0)) = (12, 31) := by
  decide

/-- `isLeap` in terms of the year count from the absolute zero year. -/
theorem isLeap_iff (year : Int) :
    time.isLeap year = true ↔
      ((year - time.absoluteZeroYear + 1) % 4 = 0 ∧
        ((year - time.absoluteZeroYear + 1) % 100 ≠ 0 ∨
          (year - time.absoluteZeroYear + 1) % 400 = 0)) := by
  have hZ : time.absoluteZeroYear = -292277022399 := rfl
  rw [hZ]
  simp only [time.isLeap, Bool.and_eq_true, Bool.or_eq_true, beq_iff_eq, bne_iff_ne, ne_eq]
  omega

/-- The year and the day of the year of a day number are the only ones that
count back to it. -/
theorem absYearDay_unique (D a i : Int) (h0 : 0 ≤ D) (h1 : D ≤ 1000000000000000)
    (he : 365 * (a - time.absoluteZeroYear) + (a - time.absoluteZeroYear) / 4 -
      (a - time.absoluteZeroYear) / 100 + (a - time.absoluteZeroYear) / 400 + i = D)
    (hi0 : 0 ≤ i) (hi1 : i ≤ 365) (hi2 : i = 365 → time.isLeap a = true) :
    time.absYearDay D = (a, i) := by
  obtain ⟨_, _, k3, k4, k5, k6⟩ := absYearDay_spec D h0 h1
  generalize time.absYearDay D = p at *
  obtain ⟨y, yd⟩ := p
  simp only at k3 k4 k5 k6
  rw [isLeap_iff] at hi2 k6
  generalize hA : a - time.absoluteZeroYear = A at *
  generalize hB : y - time.absoluteZeroYear = B at *
  have hya : B = A := by
    rcases lt_trichotomy B A with h | h | h
    · obtain ⟨m1, m2⟩ := epoch_days_lt B A h
      by_cases hy : yd = 365
      · have := m2 (k6 hy); omega
      · omega
    · exact h
    · obtain ⟨m1, m2⟩ := epoch_days_lt A B h
      by_cases hy : i = 365
      · have := m2 (hi2 hy); omega
      · omega
  subst hya
  have e1 : y = a := by omega
  have e2 : yd = i := by omega
  rw [e1, e2]

/-- From one day number to the next, the year and the day of the year move to
the next day of the year, or to the first day of the next year. -/
theorem absYearDay_succ (D : Int) (h0 : 0 ≤ D) (h1 : D + 1 ≤ 1000000000000000) :
    time.absYearDay (D + 1) =
      (if (time.absYearDay D).2 + 1 <
          365 + (if time.isLeap (time.absYearDay D).1 = true then 1 else 0) then
        ((time.absYearDay D).1, (time.absYearDay D).2 + 1)
      else ((time.absYearDay D).1 + 1, 0)) ∧
    (time.absYearDay D).2 < 365 + (if time.isLeap (time.absYearDay D).1 = true then 1 else 0) := by
  obtain ⟨k1, k2, k3, k4, k5, k6⟩ := absYearDay_spec D h0 (by omega)
  generalize time.absYearDay D = p at *
  obtain ⟨y, yd⟩ := p
  simp only at k1 k2 k3 k4 k5 k6 ⊢
  have hl := isLeap_iff y
  generalize hB : y - time.absoluteZeroYear = B at *
  have hB1 : y + 1 - time.absoluteZeroYear = B + 1 := by omega
  have m1 : (B + 1) % 100 = ((B + 1) % 400) % 100 :=
    (Int.emod_emod_of_dvd (B + 1) (by norm_num)).symm
  have m2 : (B + 1) % 4 = ((B + 1) % 100) % 4 :=
    (Int.emod_emod_of_dvd (B + 1) (by norm_num)).symm
  by_cases hly : time.isLeap y = true
  · have hc := hl.mp hly
    clear hl k6
    simp only [hly, if_true]
    refine ⟨?_, by omega⟩
    by_cases hs : yd + 1 < 365 + 1
    · rw [if_pos hs]
      apply absYearDay_unique (D + 1) y (yd + 1) (by omega) h1 ?_ (by omega) (by omega)
      · intro _; exact hly
      · rw [hB]; omega
    · rw [if_neg hs]
      apply absYearDay_unique (D + 1) (y + 1) 0 (by omega) h1 ?_ (by omega) (by omega)
      · intro h; omega
      · rw [hB1]
        have hy : yd = 365 := by omega
        obtain ⟨c4, c100⟩ := hc
        have e4 : (B + 1) / 4 = B / 4 + 1 := by omega
        rcases c100 with c | c
        · have e100 : (B + 1) / 100 = B / 100 := by omega
          have e400 : (B + 1) / 400 = B / 400 := by omega
          omega
        · have e100 : (B + 1) / 100 = B / 100 + 1 := by omega
          have e400 : (B + 1) / 400 = B / 400 + 1 := by omega
          omega
  · have hc : ¬ ((B + 1) % 4 = 0 ∧ ((B + 1) % 100 ≠ 0 ∨ (B + 1) % 400 = 0)) :=
      fun h => hly (hl.mpr h)
    have hyd : yd ≤ 364 := by
      by_contra hn
      exact hly (k6 (by omega))
    clear hl k6
    simp only [hly, Bool.false_eq_true, if_false]
    refine ⟨?_, by omega⟩
    by_cases hs : yd + 1 < 365 + 0
    · rw [if_pos hs]
      apply absYearDay_unique (D + 1) y (yd + 1) (by omega) h1 ?_ (by omega) (by omega)
      · intro h; omega
      · rw [hB]; omega
    · rw [if_neg hs]
      apply absYearDay_unique (D + 1) (y + 1) 0 (by omega) h1 ?_ (by omega) (by omega)
      · intro h; omega
      · rw [hB1]
        have hy : yd = 364 := by omega
        by_cases c4 : (B + 1) % 4 = 0
        · have c100 : (B + 1) % 100 = 0 := by
            by_contra hn
            exact hc ⟨c4, Or.inl hn⟩
          have c400 : (B + 1) % 400 ≠ 0 := fun h => hc ⟨c4, Or.inr h⟩
          have e4 : (B + 1) / 4 = B / 4 + 1 := by omega
          have e100 : (B + 1) / 100 = B / 100 + 1 := by omega
          have e400 : (B + 1) / 400 = B / 400 := by omega
          omega
        · have n100 : (B + 1) % 100 ≠ 0 := by
            intro h
            rw [h] at m2
            exact c4 (by simpa using m2)
          have n400 : (B + 1) % 400 ≠ 0 := by
            intro h
            rw [h] at m1
            exact n100 (by simpa using m1)
          clear m1 m2
          have e4 : (B + 1) / 4 = B / 4 := by omega
          have e100 : (B + 1) / 100 = B / 100 := by omega
          have e400 : (B + 1) / 400 = B / 400 := by omega
          omega

/-- The date of a day number is a date of the calendar: a month from 1 to 12
and a day from 1 to the length of the month. -/
theorem dateOfDay_valid (D : Int) (h0 : 0 ≤ D) (h1 : D ≤ 1000000000000000) :
    1 ≤ (time.dateOfDay D).2.1 ∧ (time.dateOfDay D).2.1 ≤ 12 ∧
    1 ≤ (time.dateOfDay D).2.2 ∧
    (time.dateOfDay D).2.2 ≤ time.daysIn (time.dateOfDay D).1 (time.dateOfDay D).2.1 := by
  obtain ⟨_, _, _, k4, k5, k6⟩ := absYearDay_spec D h0 h1
  simp only [time.dateOfDay, time.monthDay, time.daysIn]
  generalize time.absYearDay D = p at *
  obtain ⟨y, yd⟩ := p
  simp only at k4 k5 k6 ⊢
  generalize hL : time.isLeap y = L at *
  obtain ⟨k, rfl⟩ := Int.eq_ofNat_of_zero_le k4
  have hk : k < 366 := by omega
  have hlt : (k : Int) < 365 + (if L = true then 1 else 0) := by
    by_cases h : (k : Int) = 365
    · rw [k6 h]; simp; omega
    · split <;> omega
  obtain ⟨t1, t2, t3, t4, _⟩ := monthDayOf_table L k hk hlt
  exact ⟨t1, t2, t3, t4⟩

/-- From one day number to the next, the date moves to the next calendar day:
the next day of the month, the first day of the next month after the last day
of a month, and January 1 of the next year after December 31. -/
theorem dateOfDay_succ (D : Int) (h0 : 0 ≤ D) (h1 : D + 1 ≤ 1000000000000000) :
    time.dateOfDay (D + 1) = time.nextDay (time.dateOfDay D) := by
  obtain ⟨_, _, _, k4, k5, k6⟩ := absYearDay_spec D h0 (by omega)
  obtain ⟨s1, s2⟩ := absYearDay_succ D h0 h1
  simp only [time.dateOfDay, time.monthDay, time.nextDay, time.daysIn]
  rw [s1]
  generalize time.absYearDay D = p at *
  obtain ⟨y, yd⟩ := p
  simp only at k4 k5 k6 s2 ⊢
  generalize hL : time.isLeap y = L at *
  obtain ⟨k, rfl⟩ := Int.eq_ofNat_of_zero_le k4
  have hk : k < 366 := by omega
  by_cases hs : (k : Int) + 1 < 365 + (if L = true then 1 else 0)
  · rw [if_pos hs]
    simp only [hL]
    obtain ⟨t1, t2⟩ := monthDayOf_succ_table L k hk hs
    rw [t1]
    by_cases hd : (time.monthDayOf L k).2 < time.monthLength L (time.monthDayOf L k).1
    · rw [if_pos hd, if_pos hd]
    · rw [if_neg hd, if_neg hd]
      have hm : (time.monthDayOf L k).1 < 12 := by
        rcases t2 with t2 | t2
        · exact absurd t2 hd
        · exact t2
      rw [if_pos hm]
  · rw [if_neg hs]
    simp only
    have hk2 : (k : Int) = 364 + (if L = true then 1 else 0) := by omega
    obtain ⟨e1, e2⟩ := monthDayOf_ends L
    obtain ⟨e3, _⟩ := monthDayOf_ends (time.isLeap (y + 1))
    rw [e3, hk2, e2]
    simp [time.monthLength]

/-- The day before the day after a date of the calendar is that date. -/
theorem prevDay_nextDay (date : Int × Int × Int)
    (hm : 1 ≤ date.2.1 ∧ date.2.1 ≤ 12)
    (hd : 1 ≤ date.2.2 ∧ date.2.2 ≤ time.daysIn date.1 date.2.1) :
    time.prevDay (time.nextDay date) = date := by
  obtain ⟨y, m, d⟩ := date
  simp only at hm hd
  unfold time.nextDay
  simp only
  by_cases h1 : d < time.daysIn y m
  · rw [if_pos h1]
    unfold time.prevDay
    simp only
    rw [if_pos (by omega)]
    simp
  · rw [if_neg h1]
    have hdd : d = time.daysIn y m := by omega
    by_cases h2 : m < 12
    · rw [if_pos h2]
      unfold time.prevDay
      simp only
      rw [if_neg (by omega), if_pos (by omega)]
      simp [hdd]
    · rw [if_neg h2]
      unfold time.prevDay
      simp only
      rw [if_neg (by omega), if_neg (by omega)]
      have hm12 : m = 12 := by omega
      subst hm12
      simp [hdd, time.daysIn, time.monthLength]

/-- From one day number to the one before, the date moves to the previous
calendar day. -/
theorem dateOfDay_pred (D : Int) (h0 : 1 ≤ D) (h1 : D ≤ 1000000000000000) :
    time.dateOfDay (D - 1) = time.prevDay (time.dateOfDay D) := by
  have hs := dateOfDay_succ (D - 1) (by omega) (by omega)
  obtain ⟨v1, v2, v3, v4⟩ := dateOfDay_valid (D - 1) (by omega) (by omega)
  rw [sub_add_cancel] at hs
  rw [hs, prevDay_nextDay _ ⟨v1, v2⟩ ⟨v3, v4⟩]

/-- The date of a day number moved by `n` days is the date moved by `n`
calendar days, one day at a time. -/
theorem dateOfDay_add (D n : Int) (h0 : 0 ≤ D) (h1 : D ≤ 1000000000000000)
    (h2 : 0 ≤ D + n) (h3 : D + n ≤ 1000000000000000) :
    time.dateOfDay (D + n) = time.addDays (time.dateOfDay D) n := by
  unfold time.addDays
  by_cases hn : 0 ≤ n
  · rw [if_pos hn]
    obtain ⟨k, rfl⟩ := Int.eq_ofNat_of_zero_le hn
    simp only [Int.toNat_ofNat]
    clear hn
    induction k with
    | zero => simp
    | succ k ih =>
      rw [Function.iterate_succ_apply']
      rw [← ih (by omega) (by omega)]
      have := dateOfDay_succ (D + k) (by omega) (by push_cast at h3; omega)
      rw [← this]
      push_cast
      ring_nf
  · rw [if_neg hn]
    obtain ⟨k, hk⟩ := Int.eq_ofNat_of_zero_le (show 0 ≤ -n by omega)
    have hnk : n = -(k : Int) := by omega
    subst hnk
    simp only [neg_neg, Int.toNat_ofNat]
    clear hn hk
    induction k with
    | zero => simp
    | succ k ih =>
      rw [Function.iterate_succ_apply']
      rw [← ih (by push_cast at h2; omega) (by omega)]
      have := dateOfDay_pred (D + -(k : Int)) (by push_cast at h2; omega) (by omega)
      rw [← this]
      push_cast
      ring_nf

/-- `norm` leaves a low part that is already in range unchanged. -/
theorem norm_in_range (hi lo base : Int) (h0 : 0 ≤ lo) (h1 : lo < base) :
    time.norm hi lo base = (hi, lo) := by
  unfold time.norm
  have h2 : ¬ lo < 0 := by omega
  have h3 : ¬ lo ≥ base := by omega
  simp [h2, h3]

/-- The hour, minute and second of `absClock` are in range and add up to the
second within the day. -/
theorem absClock_spec (abs : Int) :
    0 ≤ (time.absClock abs).1 ∧ (time.absClock abs).1 < 24 ∧
    0 ≤ (time.absClock abs).2.1 ∧ (time.absClock abs).2.1 < 60 ∧
    0 ≤ (time.absClock abs).2.2 ∧ (time.absClock abs).2.2 < 60 ∧
    (time.absClock abs).1 * 3600 + (time.absClock abs).2.1 * 60 + (time.absClock abs).2.2 =
      abs % 86400 := by
  simp only [time.absClock, time.secondsPerDay, time.secondsPerHour, time.secondsPerMinute]
  norm_num
  omega

/-- The entries of `daysBefore` for the twelve months. -/
theorem daysBefore_bounds (month : Int) (hm : 1 ≤ month ∧ month ≤ 12) :
    0 ≤ time.daysBefore.getD (month - 1).toNat 0 ∧
    time.daysBefore.getD (month - 1).toNat 0 ≤ 334 := by
  obtain ⟨h1, h2⟩ := hm
  interval_cases month <;> simp [time.daysBefore]

/-- The absolute time of `t`, when its wall clock is within the range of the
absolute clock. -/
theorem Time.abs_eq (t : Time)
    (h0 : -9223372028715321600 ≤ t.wall) (h1 : t.wall < 9223372044994230016) :
    t.abs = t.wall + 9223372028715321600 := by
  unfold Time.wall Time.offset at *
  unfold Time.abs
  simp only [time.unixToAbsolute]
  generalize (t.loc.lookup t.unix).1 = o at *
  unfold int64 uint64
  omega

/-- The time built by `time.Date` for a year, month, clock and nanosecond in
range, whatever the day: its day number is the days before the year, before
the month and before the day, and its Unix time is the wall clock so counted
less the zone offset found for it. -/
theorem Date_eq (year month day hour min sec nsec : Int) (loc : Location) (W : Int)
    (hy : 0 ≤ year - time.absoluteZeroYear ∧ year - time.absoluteZeroYear ≤ 1000000000000000)
    (hm : 1 ≤ month ∧ month ≤ 12)
    (hh : 0 ≤ hour ∧ hour < 24) (hmi : 0 ≤ min ∧ min < 60)
    (hs : 0 ≤ sec ∧ sec < 60) (hn : 0 ≤ nsec ∧ nsec < 1000000000)
    (hW : W = (365 * (year - time.absoluteZeroYear) + (year - time.absoluteZeroYear) / 4 -
          (year - time.absoluteZeroYear) / 100 + (year - time.absoluteZeroYear) / 400 +
          time.daysBefore.getD (month - 1).toNat 0 +
          (if time.isLeap year = true ∧ month ≥ 3 then 1 else 0) + (day - 1)) * 86400 +
        (hour * 3600 + min * 60 + sec) - 9223372028715321600)
    (hWr : -1000000000000000000 ≤ W ∧ W ≤ 1000000000000000000)
    (ho : ∀ u, -1000000 ≤ (loc.lookup u).1 ∧ (loc.lookup u).1 ≤ 1000000)
    (hst : loc.stableAt W) :
    time.Date year month day hour min sec nsec loc =
      { unix := W - (loc.lookup W).1, nsec := nsec, loc := loc } := by
  have e0 : int64 (month - 1) = month - 1 := int64_eq _ (by omega) (by omega)
  have n1 := norm_in_range year (month - 1) 12 (by omega) (by omega)
  have n2 := norm_in_range sec nsec 1000000000 hn.1 hn.2
  have n3 := norm_in_range min sec 60 hs.1 hs.2
  have n4 := norm_in_range hour min 60 hmi.1 hmi.2
  have n5 := norm_in_range day hour 24 hh.1 hh.2
  have e1 : int64 (month - 1 + 1) = month := by
    rw [sub_add_cancel]; exact int64_eq _ (by omega) (by omega)
  have hd := daysSinceEpoch_exact year hy.1 hy.2
  obtain ⟨t0, t1⟩ := daysBefore_bounds month hm
  have hE : 0 ≤ 365 * (year - time.absoluteZeroYear) + (year - time.absoluteZeroYear) / 4 -
      (year - time.absoluteZeroYear) / 100 + (year - time.absoluteZeroYear) / 400 ∧
    365 * (year - time.absoluteZeroYear) + (year - time.absoluteZeroYear) / 4 -
      (year - time.absoluteZeroYear) / 100 + (year - time.absoluteZeroYear) / 400 ≤
      366000000000000000 := by omega
  unfold time.Date
  simp only []
  rw [e0, n1]
  simp only []
  rw [n2]
  simp only []
  rw [n3]
  simp only []
  rw [n4]
  simp only []
  rw [n5]
  simp only [e0, e1, hd, time.secondsPerDay, time.secondsPerHour, time.secondsPerMinute,
    time.unixToAbsolute]
  generalize 365 * (year - time.absoluteZeroYear) + (year - time.absoluteZeroYear) / 4 -
    (year - time.absoluteZeroYear) / 100 + (year - time.absoluteZeroYear) / 400 = E at *
  generalize time.daysBefore.getD (month - 1).toNat 0 = T at *
  have hunix : int64 (int64 (uint64 (uint64 (uint64
      ((if time.isLeap year = true ∧ month ≥ 3 then uint64 (uint64 (E + uint64 T) + 1)
        else uint64 (E + uint64 T)) + uint64 (int64 (day - 1))) * (24 * (60 * 60))) +
      uint64 (int64 (int64 (int64 (hour * (60 * 60)) + int64 (min * 60)) + sec)))) +
      -(62135596800 + 9223371966579724800)) = W := by
    clear hd n1 n2 n3 n4 n5 e0 e1 hst ho hy
    subst hW
    split <;> (unfold int64 uint64; omega)
  rw [hunix]
  have o1 := ho W
  have i1 : int64 (loc.lookup W).1 = (loc.lookup W).1 := int64_eq _ (by omega) (by omega)
  have i2 : int64 (W - (loc.lookup W).1) = W - (loc.lookup W).1 :=
    int64_eq _ (by omega) (by omega)
  have i3 : (loc.lookup (W - (loc.lookup W).1)).1 = (loc.lookup W).1 := hst
  simp only [i1, i2, i3, ite_self]
  by_cases hz : (loc.lookup W).1 = 0
  · simp [hz]
  · simp [hz]

/-- The date of a day number counts back to it: the days before the year, before
the month and before the day of the date add up to the day number. -/
theorem dateOfDay_count (D : Int) (h0 : 0 ≤ D) (h1 : D ≤ 1000000000000000) :
    0 ≤ (time.dateOfDay D).1 - time.absoluteZeroYear ∧
    (time.dateOfDay D).1 - time.absoluteZeroYear ≤ D ∧
    1 ≤ (time.dateOfDay D).2.1 ∧ (time.dateOfDay D).2.1 ≤ 12 ∧
    1 ≤ (time.dateOfDay D).2.2 ∧ (time.dateOfDay D).2.2 ≤ 366 ∧
    365 * ((time.dateOfDay D).1 - time.absoluteZeroYear) +
      ((time.dateOfDay D).1 - time.absoluteZeroYear) / 4 -
      ((time.dateOfDay D).1 - time.absoluteZeroYear) / 100 +
      ((time.dateOfDay D).1 - time.absoluteZeroYear) / 400 +
      time.daysBefore.getD ((time.dateOfDay D).2.1 - 1).toNat 0 +
      (if time.isLeap (time.dateOfDay D).1 = true ∧ (time.dateOfDay D).2.1 ≥ 3 then 1 else 0) +
      ((time.dateOfDay D).2.2 - 1) = D := by
  obtain ⟨k1, k2, k3, k4, k5, k6⟩ := absYearDay_spec D h0 h1
  have hdd : time.dateOfDay D = ((time.absYearDay D).1,
      time.monthDayOf (time.isLeap (time.absYearDay D).1) (time.absYearDay D).2) := rfl
  obtain ⟨k, hk0⟩ := Int.eq_ofNat_of_zero_le k4
  have hk : k < 366 := by omega
  have hlt : (k : Int) < 365 + (if time.isLeap (time.absYearDay D).1 = true then 1 else 0) := by
    by_cases h : (time.absYearDay D).2 = 365
    · rw [if_pos (k6 h)]; omega
    · split <;> omega
  obtain ⟨t1, t2, t3, _, t5⟩ := monthDayOf_table (time.isLeap (time.absYearDay D).1) k hk
    (by simpa using hlt)
  rw [← hk0] at t1 t2 t3 t5
  obtain ⟨b0, b1⟩ := daysBefore_bounds _ ⟨t1, t2⟩
  rw [hdd]
  refine ⟨k1, k2, t1, t2, t3, ?_, ?_⟩
  · show (time.monthDayOf (time.isLeap (time.absYearDay D).1) (time.absYearDay D).2).2 ≤ 366
    split at t5 <;> omega
  · show 365 * ((time.absYearDay D).1 - time.absoluteZeroYear) +
      ((time.absYearDay D).1 - time.absoluteZeroYear) / 4 -
      ((time.absYearDay D).1 - time.absoluteZeroYear) / 100 +
      ((time.absYearDay D).1 - time.absoluteZeroYear) / 400 +
      time.daysBefore.getD ((time.monthDayOf (time.isLeap (time.absYearDay D).1)
        (time.absYearDay D).2).1 - 1).toNat 0 +
      (if time.isLeap (time.absYearDay D).1 = true ∧
        (time.monthDayOf (time.isLeap (time.absYearDay D).1) (time.absYearDay D).2).1 ≥ 3
        then 1 else 0) +
      ((time.monthDayOf (time.isLeap (time.absYearDay D).1) (time.absYearDay D).2).2 - 1) = D
    rw [add_assoc (365 * ((time.absYearDay D).1 - time.absoluteZeroYear) +
      ((time.absYearDay D).1 - time.absoluteZeroYear) / 4 -
      ((time.absYearDay D).1 - time.absoluteZeroYear) / 100 +
      ((time.absYearDay D).1 - time.absoluteZeroYear) / 400), add_assoc, t5]
    exact k3

/-- The time `t.AddDate(0, 0, d)`, for a time `t` and a count of days `d` in
range: its wall clock is the wall clock of `t` moved by `d` days of 86400
seconds, when no zone transition lies between that reading and the time it
stands for. -/
theorem AddDate_days (t : Time) (d : Int)
    (hn : 0 ≤ t.nsec ∧ t.nsec < 1000000000)
    (hu : -100000000000000000 ≤ t.unix ∧ t.unix ≤ 100000000000000000)
    (hd : -1000000000000 ≤ d ∧ d ≤ 1000000000000)
    (ho : ∀ u, -1000000 ≤ (t.loc.lookup u).1 ∧ (t.loc.lookup u).1 ≤ 1000000)
    (hst : t.loc.stableAt (t.wall + d * 86400)) :
    t.AddDate 0 0 d =
      { unix := t.wall + d * 86400 - (t.loc.lookup (t.wall + d * 86400)).1,
        nsec := t.nsec, loc := t.loc } := by
  have hw : -100000000001000000 ≤ t.wall ∧ t.wall ≤ 100000000001000000 := by
    have := ho t.unix
    unfold Time.wall Time.offset
    omega
  have ha := Time.abs_eq t (by omega) (by omega)
  have hZ : time.absoluteZeroYear = -292277022399 := rfl
  obtain ⟨c1, c2, c3, c4, c5, c6, c7⟩ := dateOfDay_count (t.abs / 86400) (by omega) (by omega)
  obtain ⟨a1, a2, a3, a4, a5, a6, a7⟩ := absClock_spec t.abs
  have hD : t.Date = time.dateOfDay (t.abs / 86400) := rfl
  have hC : t.Clock = time.absClock t.abs := rfl
  have e1 : int64 ((time.dateOfDay (t.abs / 86400)).1 + 0) = (time.dateOfDay (t.abs / 86400)).1 := by
    rw [add_zero]; exact int64_eq _ (by omega) (by omega)
  have e2 : int64 ((time.dateOfDay (t.abs / 86400)).2.1 + 0) =
      (time.dateOfDay (t.abs / 86400)).2.1 := by
    rw [add_zero]; exact int64_eq _ (by omega) (by omega)
  have e3 : int64 ((time.dateOfDay (t.abs / 86400)).2.2 + d) =
      (time.dateOfDay (t.abs / 86400)).2.2 + d := int64_eq _ (by omega) (by omega)
  unfold Time.AddDate
  rw [hD, hC]
  simp only []
  rw [e1, e2, e3]
  refine Date_eq _ _ _ _ _ _ _ _ (t.wall + d * 86400) ⟨c1, by omega⟩ ⟨c3, c4⟩ ⟨a1, a2⟩ ⟨a3, a4⟩
    ⟨a5, a6⟩ hn ?_ (by omega) ho hst
  have key : 365 * ((time.dateOfDay (t.abs / 86400)).1 - time.absoluteZeroYear) +
      ((time.dateOfDay (t.abs / 86400)).1 - time.absoluteZeroYear) / 4 -
      ((time.dateOfDay (t.abs / 86400)).1 - time.absoluteZeroYear) / 100 +
      ((time.dateOfDay (t.abs / 86400)).1 - time.absoluteZeroYear) / 400 +
      time.daysBefore.getD ((time.dateOfDay (t.abs / 86400)).2.1 - 1).toNat 0 +
      (if time.isLeap (time.dateOfDay (t.abs / 86400)).1 = true ∧
        (time.dateOfDay (t.abs / 86400)).2.1 ≥ 3 then 1 else 0) +
      ((time.dateOfDay (t.abs / 86400)).2.2 + d - 1) = t.abs / 86400 + d := by
    linarith
  rw [key, a7]
  omega

/-- The clock of an absolute time does not change when whole days are added. -/
theorem absClock_add_days (abs d : Int) :
    time.absClock (abs + d * 86400) = time.absClock abs := by
  simp only [time.absClock, time.secondsPerDay, time.secondsPerHour, time.secondsPerMinute]
  norm_num

/-- What `t.AddDate(0, 0, d)` is, read as a wall clock: the location and the
nanoseconds of `t`, its wall clock moved by `d` days of 86400 seconds, so the
same time of day on the date `d` calendar days away. -/
theorem AddDate_calendar (t : Time) (d : Int)
    (hn : 0 ≤ t.nsec ∧ t.nsec < 1000000000)
    (hu : -100000000000000000 ≤ t.unix ∧ t.unix ≤ 100000000000000000)
    (hd : -1000000000000 ≤ d ∧ d ≤ 1000000000000)
    (ho : ∀ u, -1000000 ≤ (t.loc.lookup u).1 ∧ (t.loc.lookup u).1 ≤ 1000000)
    (hst : t.loc.stableAt (t.wall + d * 86400)) :
    (t.AddDate 0 0 d).loc = t.loc ∧ (t.AddDate 0 0 d).nsec = t.nsec ∧
    (t.AddDate 0 0 d).wall = t.wall + d * 86400 ∧
    (t.AddDate 0 0 d).Date = time.addDays t.Date d ∧
    (t.AddDate 0 0 d).Clock = t.Clock := by
  have hw : -100000000001000000 ≤ t.wall ∧ t.wall ≤ 100000000001000000 := by
    have := ho t.unix
    unfold Time.wall Time.offset
    omega
  have ha := Time.abs_eq t (by omega) (by omega)
  have hA := AddDate_days t d hn hu hd ho hst
  have hwall : (t.AddDate 0 0 d).wall = t.wall + d * 86400 := by
    rw [hA]
    unfold Location.stableAt at hst
    simp only [Time.wall, Time.offset] at hst ⊢
    rw [hst]
    ring
  have hb := Time.abs_eq (t.AddDate 0 0 d) (by omega) (by omega)
  refine ⟨by rw [hA], by rw [hA], hwall, ?_, ?_⟩
  · have h1 : (t.AddDate 0 0 d).abs / 86400 = t.abs / 86400 + d := by omega
    show time.dateOfDay ((t.AddDate 0 0 d).abs / 86400) = time.addDays (time.dateOfDay (t.abs / 86400)) d
    rw [h1]
    exact dateOfDay_add _ _ (by omega) (by omega) (by omega) (by omega)
  · show time.absClock (t.AddDate 0 0 d).abs = time.absClock t.abs
    rw [hb, hwall, ha, add_right_comm, absClock_add_days]

/-- The next calendar day of a date is a later date: a month from 1 to 12 and a
day from 1 to 31 again, further on in the order of year, month and day. -/
theorem nextDay_later (date : Int × Int × Int)
    (hm : 1 ≤ date.2.1 ∧ date.2.1 ≤ 12) (hd : 1 ≤ date.2.2 ∧ date.2.2 ≤ 31) :
    (1 ≤ (time.nextDay date).2.1 ∧ (time.nextDay date).2.1 ≤ 12) ∧
    (1 ≤ (time.nextDay date).2.2 ∧ (time.nextDay date).2.2 ≤ 31) ∧
    date.1 * 512 + date.2.1 * 32 + date.2.2 <
      (time.nextDay date).1 * 512 + (time.nextDay date).2.1 * 32 + (time.nextDay date).2.2 := by
  obtain ⟨y, m, d⟩ := date
  simp only at hm hd
  have hl : time.daysIn y m ≤ 31 := by
    unfold time.daysIn time.monthLength
    split
    · split <;> omega
    · split <;> omega
  unfold time.nextDay
  simp only
  split
  · simp only; omega
  · split
    · simp only; omega
    · simp only; omega

/-- Any number of calendar days after a date is no earlier date. -/
theorem nextDay_iterate_later (n : Nat) (date : Int × Int × Int)
    (hm : 1 ≤ date.2.1 ∧ date.2.1 ≤ 12) (hd : 1 ≤ date.2.2 ∧ date.2.2 ≤ 31) :
    (1 ≤ (time.nextDay^[n] date).2.1 ∧ (time.nextDay^[n] date).2.1 ≤ 12) ∧
    (1 ≤ (time.nextDay^[n] date).2.2 ∧ (time.nextDay^[n] date).2.2 ≤ 31) ∧
    date.1 * 512 + date.2.1 * 32 + date.2.2 ≤
      (time.nextDay^[n] date).1 * 512 + (time.nextDay^[n] date).2.1 * 32 +
        (time.nextDay^[n] date).2.2 := by
  induction n with
  | zero => exact ⟨hm, hd, le_refl _⟩
  | succ n ih =>
    rw [Function.iterate_succ_apply']
    obtain ⟨i1, i2, i3⟩ := ih
    obtain ⟨j1, j2, j3⟩ := nextDay_later _ i1 i2
    exact ⟨j1, j2, by omega⟩

/-- The date a number of calendar days away from the date of a day number is
the date of the day number that many days away. -/
theorem addDays_of_day (D n : Int) (date : Int × Int × Int) (hD : time.dateOfDay D = date)
    (h0 : 0 ≤ D) (h1 : D ≤ 1000000000000000) (h2 : 0 ≤ D + n)
    (h3 : D + n ≤ 1000000000000000) :
    time.addDays date n = time.dateOfDay (D + n) := by
  rw [← hD]
  exact (dateOfDay_add D n h0 h1 h2 h3).symm

/-- The sample formatter prints the layout `2006-01-02` as `Time.Format` does. -/
theorem sampleFormat_isoDate (t : Time) :
    sampleFormat t "2006-01-02" = time.isoDate t.Date := by
  show String.mk (sampleFormatDate t.Date.1 t.Date.2.1 t.Date.2.2
    ['2', '0', '0', '6', '-', '0', '1', '-', '0', '2']) = _
  simp [sampleFormatDate, time.isoDate]

/-! ### The claims -/

/-- C1: `isDiscussion u` is true exactly when `u` parses and its path, split on
`/`, has five segments of which the one at index 3 is `discussions`.  A path
`/o/r/discussions/7` is a discussion, `/o/r/issues/7` is an issue, and an
unparsable URL or a path without exactly five segments (such as
`/o/r/discussions/7/` or `/o/r/discussions`) is an issue; the function is total,
it returns a boolean on every input. -/
theorem isDiscussion_classifies (urlParse : String → Except GoError URL) (u : String) :
    (isDiscussion urlParse u = true ↔
      ∃ pu, urlParse u = .ok pu ∧ (strings.Split pu.Path '/').length = 5 ∧
        (strings.Split pu.Path '/')[3]? = some "discussions") ∧
    (∀ pu, urlParse u = .ok pu → pu.Path = "/o/r/discussions/7" →
      isDiscussion urlParse u = true) ∧
    (∀ pu, urlParse u = .ok pu → pu.Path = "/o/r/issues/7" →
      isDiscussion urlParse u = false) ∧
    (∀ e, urlParse u = .error e → isDiscussion urlParse u = false) ∧
    (∀ pu, urlParse u = .ok pu → (strings.Split pu.Path '/').length ≠ 5 →
      isDiscussion urlParse u = false) ∧
    (∀ pu, urlParse u = .ok pu →
      pu.Path = "/o/r/discussions/7/" ∨ pu.Path = "/o/r/discussions" →
      isDiscussion urlParse u = false) := by
  refine ⟨?_, ?_, ?_, ?_, ?_, ?_⟩
  · unfold isDiscussion
    cases h : urlParse u with
    | error e => simp
    | ok pu =>
      simp only [Except.ok.injEq, exists_eq_left']
      by_cases hlen : (strings.Split pu.Path '/').length = 5
      · simp only [hlen, ne_eq, not_true_eq_false, if_false, true_and]
        have h3 : 3 < (strings.Split pu.Path '/').length := by omega
        rw [List.getD_eq_getElem?_getD, List.getElem?_eq_getElem h3]
        simp only [Option.getD_some, beq_iff_eq, Option.some.injEq]
        exact eq_comm
      · simp [hlen]
  · intro pu h hp
    have : strings.Split pu.Path '/' = ["", "o", "r", "discussions", "7"] := by
      rw [hp]; decide
    simp [isDiscussion, h, this]
  · intro pu h hp
    have : strings.Split pu.Path '/' = ["", "o", "r", "issues", "7"] := by
      rw [hp]; decide
    simp [isDiscussion, h, this]
  · intro e h
    simp [isDiscussion, h]
  · intro pu h hlen
    simp [isDiscussion, h, hlen]
  · intro pu h hp
    rcases hp with hp | hp
    · have : strings.Split pu.Path '/' = ["", "o", "r", "discussions", "7", ""] := by
        rw [hp]; decide
      simp [isDiscussion, h, this]
    · have : strings.Split pu.Path '/' = ["", "o", "r", "discussions"] := by
        rw [hp]; decide
      simp [isDiscussion, h, this]

/-- C1 at concrete URLs: with the sample parser, a discussion URL is classified
discussion, and an issue URL, a URL with a trailing slash and an unparsable
string are classified issue. -/
theorem isDiscussion_classifies_witness :
    isDiscussion sampleURLParse "https://github.com/o/r/discussions/7" = true ∧
    isDiscussion sampleURLParse "https://github.com/o/r/issues/7" = false ∧
    isDiscussion sampleURLParse "https://github.com/o/r/discussions/7/" = false ∧
    isDiscussion sampleURLParse "https://github.com/o/r/discussions/%zz" = false :=
  ⟨(isDiscussion_classifies sampleURLParse "https://github.com/o/r/discussions/7").2.1
      ⟨"/o/r/discussions/7"⟩ rfl rfl,
   (isDiscussion_classifies sampleURLParse "https://github.com/o/r/issues/7").2.2.1
      ⟨"/o/r/issues/7"⟩ rfl rfl,
   (isDiscussion_classifies sampleURLParse "https://github.com/o/r/discussions/7/").2.2.2.2.2
      ⟨"/o/r/discussions/7/"⟩ rfl (Or.inl rfl),
   (isDiscussion_classifies sampleURLParse "https://github.com/o/r/discussions/%zz").2.2.2.1
      (.fundamental "parse https://github.com/o/r/discussions/%zz: not a rooted path") rfl⟩

/-- C2: on the discussion path, when the template is fetched and compiles and
`FindLastIssueByLabel` returns a prior ticket with a nil error, `render` does
not return: `errors.Cause(nil).Error()` panics. -/
theorem render_discussion_found_panics {σ τ : Type} (P : Platform σ τ)
    (is : issueServiceImpl σ) (u : String) (w w1 w2 : σ) (t li : Issue) (tt bt : τ)
    (hdisc : isDiscussion P.urlParse u = true)
    (hfind : is.dr.FindByURL u w = ((t, none), w1))
    (htitle : P.templateParse "title" (AddDateAndFormat P.Format is.ct) t.Title = .ok tt)
    (hbody : P.templateParse "body" (AddDateAndFormat P.Format is.ct) t.Body = .ok bt)
    (hlast : is.dr.FindLastIssueByLabel t w1 = ((li, none), w2)) :
    (render P is u w).out = .panicked ∧ (Create P is u w).out = .panicked := by
  have h : (render P is u w).out = .panicked := by
    simp [render, hdisc, hfind, htitle, hbody, hlast, errors.Cause]
  exact ⟨h, by simp [Create, h]⟩

/-- C2 at a concrete input: a discussion template with literal title and body
and a prior discussion with a URL, found without error. -/
theorem render_discussion_found_panics_witness :
    (render (samplePlatform none) (discussionService (lastWeek, none) false none)
        "https://github.com/o/r/discussions/7" []).out = .panicked ∧
    (Create (samplePlatform none) (discussionService (lastWeek, none) false none)
        "https://github.com/o/r/discussions/7" []).out = .panicked :=
  render_discussion_found_panics (samplePlatform none) (discussionService (lastWeek, none) false none)
    "https://github.com/o/r/discussions/7" [] [] [] (weeklyTemplate []) lastWeek
    "Weekly report" "- [ ] review" (by decide) rfl rfl rfl rfl

/-- C3: on the discussion path, when the template is fetched, compiles and
executes, and `FindLastIssueByLabel` fails with an error whose root cause has
the message `repo.LastDiscussionNotFound`, `render` returns a ticket and no
error, and the ticket's `LastIssueURL` is `"Last Issue is not found"`. -/
theorem render_discussion_not_found {σ τ : Type} (P : Platform σ τ)
    (is : issueServiceImpl σ) (u : String) (w w1 w2 : σ) (t li : Issue) (tt bt : τ)
    (e cause : GoError) (title body : String)
    (hdisc : isDiscussion P.urlParse u = true)
    (hfind : is.dr.FindByURL u w = ((t, none), w1))
    (htitle : P.templateParse "title" (AddDateAndFormat P.Format is.ct) t.Title = .ok tt)
    (hbody : P.templateParse "body" (AddDateAndFormat P.Format is.ct) t.Body = .ok bt)
    (hlast : is.dr.FindLastIssueByLabel t w1 = ((li, some e), w2))
    (hcause : errors.Cause (some e) = some cause)
    (hmsg : cause.Error = P.LastDiscussionNotFound)
    (hxt : P.templateExecute tt
      { CurrentTime := is.ct, LastIssue := placeholderIssue, AddDay := AddDay is.ct } = .ok title)
    (hxb : P.templateExecute bt
      { CurrentTime := is.ct, LastIssue := placeholderIssue, AddDay := AddDay is.ct } = .ok body) :
    ∃ res, (render P is u w).out = .ok res ∧ res.LastIssueURL = "Last Issue is not found" := by
  simp only [errors.Cause] at hcause
  simp [render, hdisc, hfind, htitle, hbody, hlast, errors.Cause, hcause, hmsg,
    placeholderIssue] at hxt hxb ⊢
  simp [hxt, hxb]

/-- C3 at a concrete input: the first run of a discussion template, the lookup
failing with the wrapped not-found error. -/
theorem render_discussion_not_found_witness :
    ∃ res, (render (samplePlatform none)
        (discussionService
          (Issue.zero, some (errors.WithStack (errors.New "last discussion not found")))
          false none)
        "https://github.com/o/r/discussions/7" []).out = .ok res ∧
      res.LastIssueURL = "Last Issue is not found" :=
  render_discussion_not_found (samplePlatform none)
    (discussionService
      (Issue.zero, some (errors.WithStack (errors.New "last discussion not found"))) false none)
    "https://github.com/o/r/discussions/7" [] [] [] (weeklyTemplate []) Issue.zero
    "Weekly report" "- [ ] review"
    (errors.WithStack (errors.New "last discussion not found"))
    (errors.New "last discussion not found") "Weekly report" "- [ ] review"
    (by decide) rfl rfl rfl rfl rfl rfl rfl rfl

/-- C4, as stated, fails: an issue template with no labels whose title is an
unclosed action makes `render` fail with the title parse error, not with the
label-validation error. -/
theorem render_empty_labels_parse_error_first :
    isDiscussion sampleURLParse "https://github.com/o/r/issues/7" = false ∧
    ({ weeklyTemplate [] with Title := "\x7b\x7b" } : Issue).Labels = [] ∧
    (render (samplePlatform none)
        (issueService { weeklyTemplate [] with Title := "\x7b\x7b" } (lastWeek, none) false none)
        "https://github.com/o/r/issues/7" []).out =
      .error (errors.Wrap (.fundamental "template: title:1: unclosed action")
        "Failed to parse title") ∧
    (errors.Wrap (.fundamental "template: title:1: unclosed action")
        "Failed to parse title").Error ≠ "Requires at least one label" := by
  refine ⟨by decide, rfl, rfl, by decide⟩

/-- C4 (amended): for a template URL classified as issue whose fetched template
has no labels and whose title and body compile, `render` fails with the error
`Requires at least one label`, `Create` fails with that error under a stack
wrapper (same message), and the only call made is the template's `FindByURL`. -/
theorem render_requires_label {σ τ : Type} (P : Platform σ τ)
    (is : issueServiceImpl σ) (u : String) (w w1 : σ) (t : Issue) (tt bt : τ)
    (hissue : isDiscussion P.urlParse u = false)
    (hfind : is.ir.FindByURL u w = ((t, none), w1))
    (hlabels : t.Labels = [])
    (htitle : P.templateParse "title" (AddDateAndFormat P.Format is.ct) t.Title = .ok tt)
    (hbody : P.templateParse "body" (AddDateAndFormat P.Format is.ct) t.Body = .ok bt) :
    (render P is u w).out = .error (errors.New "Requires at least one label") ∧
    (Create P is u w).out = .error (errors.WithStack (errors.New "Requires at least one label")) ∧
    (errors.WithStack (errors.New "Requires at least one label")).Error =
      "Requires at least one label" ∧
    (Create P is u w).calls = [Call.FindByURL Kind.issue u none] := by
  have h : render P is u w =
      ⟨.error (errors.New "Requires at least one label"), w1, [Call.FindByURL Kind.issue u none]⟩ := by
    simp [render, hissue, hfind, htitle, hbody, hlabels]
  refine ⟨by rw [h], by simp [Create, h], rfl, by simp [Create, h]⟩

/-- C4 (amended) at a concrete input: an issue template with literal title and
body and no labels. -/
theorem render_requires_label_witness :
    (render (samplePlatform none) (issueService (weeklyTemplate []) (lastWeek, none) true none)
        "https://github.com/o/r/issues/7" []).out =
      .error (errors.New "Requires at least one label") ∧
    (Create (samplePlatform none) (issueService (weeklyTemplate []) (lastWeek, none) true none)
        "https://github.com/o/r/issues/7" []).out =
      .error (errors.WithStack (errors.New "Requires at least one label")) ∧
    (errors.WithStack (errors.New "Requires at least one label")).Error =
      "Requires at least one label" ∧
    (Create (samplePlatform none) (issueService (weeklyTemplate []) (lastWeek, none) true none)
        "https://github.com/o/r/issues/7" []).calls =
      [Call.FindByURL Kind.issue "https://github.com/o/r/issues/7" none] :=
  render_requires_label (samplePlatform none)
    (issueService (weeklyTemplate []) (lastWeek, none) true none)
    "https://github.com/o/r/issues/7" [] [] (weeklyTemplate []) "Weekly report" "- [ ] review"
    (by decide) rfl rfl rfl rfl

/-- C5: once the template is fetched and compiled (and, on the issue path, has
a label), a failing `FindLastIssueByLabel` makes `render` return the error
wrapped with `Failed to get last issue`, with no ticket and no placeholder: on
the issue path for every error, on the discussion path for every error whose
root cause has a message other than `repo.LastDiscussionNotFound`. -/
theorem render_lookup_failure {σ τ : Type} (P : Platform σ τ)
    (is : issueServiceImpl σ) (u : String) (w w1 w2 : σ) (t li : Issue) (tt bt : τ)
    (e : GoError)
    (hfind : (is.repo (kindOf P.urlParse u)).FindByURL u w = ((t, none), w1))
    (htitle : P.templateParse "title" (AddDateAndFormat P.Format is.ct) t.Title = .ok tt)
    (hbody : P.templateParse "body" (AddDateAndFormat P.Format is.ct) t.Body = .ok bt)
    (hlabels : isDiscussion P.urlParse u = false → t.Labels ≠ [])
    (hlast : (is.repo (kindOf P.urlParse u)).FindLastIssueByLabel t w1 = ((li, some e), w2))
    (hcause : isDiscussion P.urlParse u = true →
      ∃ cause, errors.Cause (some e) = some cause ∧ cause.Error ≠ P.LastDiscussionNotFound) :
    (render P is u w).out = .error (errors.Wrap e "Failed to get last issue") ∧
    (errors.Wrap e "Failed to get last issue").Error = "Failed to get last issue: " ++ e.Error := by
  refine ⟨?_, rfl⟩
  cases hd : isDiscussion P.urlParse u with
  | false =>
    have hl := hlabels hd
    simp only [kindOf, hd, issueServiceImpl.repo, if_true, if_false, Bool.false_eq_true] at hfind hlast
    simp [render, hd, hfind, htitle, hbody, hlast, hl]
  | true =>
    obtain ⟨cause, hc, hne⟩ := hcause hd
    simp only [kindOf, hd, issueServiceImpl.repo, if_true, if_false, Bool.false_eq_true] at hfind hlast
    simp only [errors.Cause] at hc
    simp [render, hd, hfind, htitle, hbody, hlast, errors.Cause, hc, hne]

/-- C5 at concrete inputs: an issue lookup failing with the not-found message
itself, and a discussion lookup failing with another error. -/
theorem render_lookup_failure_witness :
    ((render (samplePlatform none)
        (issueService (weeklyTemplate ["weekly"])
          (Issue.zero, some (errors.New "last discussion not found")) false none)
        "https://github.com/o/r/issues/7" []).out =
      .error (errors.Wrap (errors.New "last discussion not found") "Failed to get last issue") ∧
      (errors.Wrap (errors.New "last discussion not found") "Failed to get last issue").Error =
        "Failed to get last issue: " ++ (errors.New "last discussion not found").Error) ∧
    ((render (samplePlatform none)
        (discussionService (Issue.zero, some (errors.WithStack (errors.New "rate limit")))
          false none)
        "https://github.com/o/r/discussions/7" []).out =
      .error (errors.Wrap (errors.WithStack (errors.New "rate limit"))
        "Failed to get last issue") ∧
      (errors.Wrap (errors.WithStack (errors.New "rate limit")) "Failed to get last issue").Error =
        "Failed to get last issue: " ++ (errors.WithStack (errors.New "rate limit")).Error) :=
  ⟨render_lookup_failure (samplePlatform none)
      (issueService (weeklyTemplate ["weekly"])
        (Issue.zero, some (errors.New "last discussion not found")) false none)
      "https://github.com/o/r/issues/7" [] [] [] (weeklyTemplate ["weekly"]) Issue.zero
      "Weekly report" "- [ ] review" (errors.New "last discussion not found")
      rfl rfl rfl (fun _ => by decide) rfl (fun h => absurd h (by decide)),
   render_lookup_failure (samplePlatform none)
      (discussionService (Issue.zero, some (errors.WithStack (errors.New "rate limit")))
        false none)
      "https://github.com/o/r/discussions/7" [] [] [] (weeklyTemplate []) Issue.zero
      "Weekly report" "- [ ] review" (errors.WithStack (errors.New "rate limit"))
      rfl rfl rfl (fun h => absurd h (by decide)) rfl
      (fun _ => ⟨errors.New "rate limit", rfl, by decide⟩)⟩

/-- C6: a successful `render` of template URL `u` returns a ticket whose owner,
repository and labels are those of the fetched template, whose title and body
are the template's title and body executed with the resolved prior ticket, the
body followed by the attribution footer naming `u`.  `Create` passes exactly
this ticket to the repository of the URL's kind: every repository `Create`
call in its trace is that call, and once the guard stage has passed, the
result, the world and the calls of `Create` are those of the repository's
`Create` applied to this ticket (followed by `CloseByURL` when configured). -/
theorem render_preserves_template {σ τ : Type} (P : Platform σ τ) (is : issueServiceImpl σ)
    (u : String) (w : σ) (res : Issue) (h : (render P is u w).out = .ok res) :
    (∃ (t : Issue) (w1 : σ) (tt bt : τ) (lastIssue : Issue) (title body : String),
      (is.repo (kindOf P.urlParse u)).FindByURL u w = ((t, none), w1) ∧
      P.templateParse "title" (AddDateAndFormat P.Format is.ct) t.Title = .ok tt ∧
      P.templateParse "body" (AddDateAndFormat P.Format is.ct) t.Body = .ok bt ∧
      (isDiscussion P.urlParse u = true → lastIssue = placeholderIssue) ∧
      (isDiscussion P.urlParse u = false →
        (is.ir.FindLastIssueByLabel t w1).1 = (lastIssue, none)) ∧
      P.templateExecute tt
        { CurrentTime := is.ct, LastIssue := lastIssue, AddDay := AddDay is.ct } = .ok title ∧
      P.templateExecute bt
        { CurrentTime := is.ct, LastIssue := lastIssue, AddDay := AddDay is.ct } = .ok body ∧
      lastIssue.URL = some res.LastIssueURL ∧
      res.Owner = t.Owner ∧ res.Repository = t.Repository ∧ res.Labels = t.Labels ∧
      res.Title = title ∧
      res.Body = body ++ " \n\n _Created from " ++ u ++
        " by [issue-creator](https://github.com/rerost/issue-creator)_") ∧
    (∀ k i err, Call.Create k i err ∈ (Create P is u w).calls →
      k = kindOf P.urlParse u ∧ i = res ∧
      err = ((is.repo (kindOf P.urlParse u)).Create res (worldBeforeCreate P is u w)).1.2) ∧
    ((runCheckBeforeCreateIssue P is (render P is u w).world).1 = none →
      (∀ e, ((is.repo (kindOf P.urlParse u)).Create res (worldBeforeCreate P is u w)).1.2 = some e →
        Create P is u w =
          ⟨.error (errors.WithStack e),
           ((is.repo (kindOf P.urlParse u)).Create res (worldBeforeCreate P is u w)).2,
           callsBeforeCreate P is u w ++ [Call.Create (kindOf P.urlParse u) res (some e)]⟩) ∧
      (((is.repo (kindOf P.urlParse u)).Create res (worldBeforeCreate P is u w)).1.2 = none →
        is.closeLastIssue = false →
        Create P is u w =
          ⟨.ok ((is.repo (kindOf P.urlParse u)).Create res (worldBeforeCreate P is u w)).1.1,
           ((is.repo (kindOf P.urlParse u)).Create res (worldBeforeCreate P is u w)).2,
           callsBeforeCreate P is u w ++ [Call.Create (kindOf P.urlParse u) res none]⟩) ∧
      (((is.repo (kindOf P.urlParse u)).Create res (worldBeforeCreate P is u w)).1.2 = none →
        is.closeLastIssue = true →
        (Create P is u w).world =
          ((is.repo (kindOf P.urlParse u)).CloseByURL res.LastIssueURL
            ((is.repo (kindOf P.urlParse u)).Create res (worldBeforeCreate P is u w)).2).2 ∧
        (Create P is u w).calls =
          callsBeforeCreate P is u w ++
            [Call.Create (kindOf P.urlParse u) res none,
             Call.CloseByURL (kindOf P.urlParse u) res.LastIssueURL
              ((is.repo (kindOf P.urlParse u)).CloseByURL res.LastIssueURL
                ((is.repo (kindOf P.urlParse u)).Create res
                  (worldBeforeCreate P is u w)).2).1.2])) := by
  refine ⟨?_, ?_, ?_⟩
  · obtain ⟨tt, bt, li, title, body, lastURL, h1, h2, h3, h4, h5, h6, h7, h8, h9, _⟩ :=
      render_ok_last P is u w res h
    refine ⟨((is.repo (kindOf P.urlParse u)).FindByURL u w).1.1,
      ((is.repo (kindOf P.urlParse u)).FindByURL u w).2, tt, bt, li, title, body,
      ?_, h2, h3, h8, h9, h4, h5, ?_⟩
    · exact Prod.ext (Prod.ext rfl h1) rfl
    · subst h7
      simp [createdFrom, String.append_assoc, h6]
  · intro k i err hc
    obtain ⟨hk, hi, _, he⟩ := Create_call_inv P is u w k i err hc
    rw [h] at hi
    have hi2 : i = res := (Outcome.ok.inj hi).symm
    subst hi2 hk
    exact ⟨rfl, rfl, he⟩
  · intro hpass
    rcases Create_cases P is u w with ⟨hp, _⟩ | ⟨e, he, _⟩ | ⟨j, hj, hc⟩
    · rw [h] at hp; cases hp
    · rw [h] at he; cases he
    · rw [h] at hj
      cases hj
      rcases hc with ⟨e, he, _⟩ | ⟨_, hc⟩
      · rw [hpass] at he; cases he
      · simp only [worldBeforeCreate, callsBeforeCreate]
        rcases hc with ⟨e, he, hc⟩ | ⟨hn, hcl, hc⟩ | ⟨hn, hcl, ⟨e, he, hc⟩ | ⟨he, hc⟩⟩
        · refine ⟨?_, ?_, ?_⟩
          · intro e2 he2
            rw [he] at he2
            cases he2
            rw [hc, he]
          · intro hn; rw [he] at hn; cases hn
          · intro hn; rw [he] at hn; cases hn
        · refine ⟨?_, ?_, ?_⟩
          · intro e2 he2; rw [hn] at he2; cases he2
          · intro _ _
            rw [hc, hn]
          · intro _ hcl2; rw [hcl] at hcl2; cases hcl2
        · refine ⟨?_, ?_, ?_⟩
          · intro e2 he2; rw [hn] at he2; cases he2
          · intro _ hcl2; rw [hcl] at hcl2; cases hcl2
          · intro _ _
            rw [hc, hn]
            simp
        · refine ⟨?_, ?_, ?_⟩
          · intro e2 he2; rw [hn] at he2; cases he2
          · intro _ hcl2; rw [hcl] at hcl2; cases hcl2
          · intro _ _
            rw [hc, hn]
            simp

/-- C6 at a concrete input: an issue template with a label and a prior issue;
the ticket handed to the repository is the rendered one, and it is in the
world after `Create`. -/
theorem render_preserves_template_witness :
    Create (samplePlatform none)
        (issueService (weeklyTemplate ["weekly"]) (lastWeek, none) false none)
        "https://github.com/o/r/issues/7" [] =
      ⟨.ok { renderedWeekly with URL := some "https://github.com/o/r/issues/100" },
       [renderedWeekly],
       [Call.FindByURL Kind.issue "https://github.com/o/r/issues/7" none,
        Call.FindLastIssueByLabel Kind.issue (weeklyTemplate ["weekly"]) none,
        Call.Create Kind.issue renderedWeekly none]⟩ :=
  (render_preserves_template (samplePlatform none)
    (issueService (weeklyTemplate ["weekly"]) (lastWeek, none) false none)
    "https://github.com/o/r/issues/7" [] renderedWeekly (by decide)).2.2 (by decide) |>.2.1
      (by decide) rfl

/-- C7: a service built with `closeLastIssue = false` never calls `CloseByURL`
during `Create`, on either repository; and when the repository `Create` call
returns a nil error, `Create` returns that call's ticket with no error. -/
theorem Create_keeps_prior_open {σ τ : Type} (P : Platform σ τ)
    (issueRepository discussionRepository : Repository σ) (currentTime : Time)
    (checkBeforeCreateIssue : Option String) (u : String) (w : σ) :
    (∀ k url err, Call.CloseByURL k url err ∉
      (Create P (NewIssueService issueRepository discussionRepository currentTime false
        checkBeforeCreateIssue) u w).calls) ∧
    (∀ k i, Call.Create k i none ∈
      (Create P (NewIssueService issueRepository discussionRepository currentTime false
        checkBeforeCreateIssue) u w).calls →
      (Create P (NewIssueService issueRepository discussionRepository currentTime false
        checkBeforeCreateIssue) u w).out =
        .ok (((NewIssueService issueRepository discussionRepository currentTime false
          checkBeforeCreateIssue).repo k).Create i
            (runCheckBeforeCreateIssue P
              (NewIssueService issueRepository discussionRepository currentTime false
                checkBeforeCreateIssue)
              (render P (NewIssueService issueRepository discussionRepository currentTime false
                checkBeforeCreateIssue) u w).world).2.1).1.1) := by
  generalize hs : NewIssueService issueRepository discussionRepository currentTime false
    checkBeforeCreateIssue = is
  have hcl : is.closeLastIssue = false := by rw [← hs]; rfl
  refine ⟨?_, ?_⟩
  · intro k url err hc
    have := (Create_close_inv P is u w k url err hc).1
    rw [hcl] at this
    cases this
  · intro k i hc
    obtain ⟨hk, hi, hpass, hnil⟩ := Create_call_inv P is u w k i none hc
    rcases Create_cases P is u w with ⟨hp, _⟩ | ⟨e, he, _⟩ | ⟨j, hj, hcase⟩
    · rw [hi] at hp; cases hp
    · rw [hi] at he; cases he
    · rw [hi] at hj
      cases hj
      subst hk
      rcases hcase with ⟨e, he, _⟩ | ⟨_, hcase⟩
      · rw [hpass] at he; cases he
      · rcases hcase with ⟨e, he, _⟩ | ⟨_, _, hcase⟩ | ⟨_, hcl2, _⟩
        · rw [← hnil] at he; cases he
        · rw [hcase]
        · rw [hcl] at hcl2; cases hcl2

/-- C7 at a concrete input: an issue service that keeps the prior issue open
creates the ticket and returns what the repository returned. -/
theorem Create_keeps_prior_open_witness :
    (∀ k url err, Call.CloseByURL k url err ∉
      (Create (samplePlatform none)
        (NewIssueService (sampleRepository (weeklyTemplate ["weekly"], none) (lastWeek, none)
          none none) unusedRepository sampleTime false none)
        "https://github.com/o/r/issues/7" []).calls) ∧
    (Create (samplePlatform none)
        (NewIssueService (sampleRepository (weeklyTemplate ["weekly"], none) (lastWeek, none)
          none none) unusedRepository sampleTime false none)
        "https://github.com/o/r/issues/7" []).out =
      .ok { renderedWeekly with URL := some "https://github.com/o/r/issues/100" } :=
  ⟨(Create_keeps_prior_open (samplePlatform none)
      (sampleRepository (weeklyTemplate ["weekly"], none) (lastWeek, none) none none)
      unusedRepository sampleTime none "https://github.com/o/r/issues/7" []).1,
   (Create_keeps_prior_open (samplePlatform none)
      (sampleRepository (weeklyTemplate ["weekly"], none) (lastWeek, none) none none)
      unusedRepository sampleTime none "https://github.com/o/r/issues/7" []).2 Kind.issue
      renderedWeekly (by decide)⟩

/-- C8: in every run of `Create`, a repository `Create` call is made only after
`render` returned the ticket and the guard stage passed (a configured script
was run and ended with a nil error), and a `CloseByURL` call is made only after
a repository `Create` call that returned a nil error.  A failing `render` or a
failing guard stage makes `Create` return an error with no repository `Create`
or `CloseByURL` call, and a failed repository `Create` is followed by no
`CloseByURL` call. -/
theorem Create_write_order {σ τ : Type} (P : Platform σ τ) (is : issueServiceImpl σ)
    (u : String) (w : σ) :
    (∀ k i err, Call.Create k i err ∈ (Create P is u w).calls →
      (render P is u w).out = .ok i ∧
      (runCheckBeforeCreateIssue P is (render P is u w).world).1 = none ∧
      (∀ script, is.checkBeforeCreateIssue = some script → script ≠ "" →
        ∃ file, Call.Bash file none ∈ (Create P is u w).calls)) ∧
    (∀ k url err, Call.CloseByURL k url err ∈ (Create P is u w).calls →
      ∃ i, Call.Create k i none ∈ (Create P is u w).calls) ∧
    (∀ e, (render P is u w).out = .error e →
      (Create P is u w).out = .error (errors.WithStack e) ∧
      ∀ c ∈ (Create P is u w).calls, c.isWrite = false) ∧
    (∀ e, (∃ i, (render P is u w).out = .ok i) →
      (runCheckBeforeCreateIssue P is (render P is u w).world).1 = some e →
      (Create P is u w).out = .error e ∧
      ∀ c ∈ (Create P is u w).calls, c.isWrite = false) ∧
    (∀ file e, Call.Bash file (some e) ∈ (Create P is u w).calls →
      (Create P is u w).out = .error (errors.WithStack e) ∧
      ∀ c ∈ (Create P is u w).calls, c.isWrite = false) ∧
    (∀ k i e, Call.Create k i (some e) ∈ (Create P is u w).calls →
      (Create P is u w).out = .error (errors.WithStack e) ∧
      ∀ k2 url err, Call.CloseByURL k2 url err ∉ (Create P is u w).calls) := by
  have hr := render_calls_read P is u w
  have hg := runCheck_calls_read P is (render P is u w).world
  have hcases := Create_cases P is u w
  refine ⟨?_, ?_, ?_, ?_, ?_, ?_⟩
  · intro k i err hc
    obtain ⟨_, hi, hpass, _⟩ := Create_call_inv P is u w k i err hc
    refine ⟨hi, hpass, ?_⟩
    intro script hs hne
    obtain ⟨file, hf⟩ := runCheck_passed_bash P is (render P is u w).world script hs hne hpass
    refine ⟨file, ?_⟩
    rcases hcases with ⟨hp, _⟩ | ⟨e, he, _⟩ | ⟨j, _, hcase⟩
    · rw [hi] at hp; cases hp
    · rw [hi] at he; cases he
    · rcases hcase with ⟨e, he, _⟩ | ⟨_, hcase⟩
      · rw [hpass] at he; cases he
      · rcases hcase with ⟨e, _, hc2⟩ | ⟨_, _, hc2⟩ | ⟨_, _, ⟨e, _, hc2⟩ | ⟨_, hc2⟩⟩ <;>
          rw [hc2] <;> simp [hf]
  · intro k url err hc
    obtain ⟨_, i, hi, _⟩ := Create_close_inv P is u w k url err hc
    exact ⟨i, hi⟩
  · intro e he
    rcases hcases with ⟨hp, _⟩ | ⟨e2, he2, hc2⟩ | ⟨j, hj, _⟩
    · rw [he] at hp; cases hp
    · rw [he] at he2
      cases he2
      rw [hc2]
      exact ⟨rfl, hr⟩
    · rw [he] at hj; cases hj
  · intro e hok hfail
    obtain ⟨i, hi⟩ := hok
    rcases hcases with ⟨hp, _⟩ | ⟨e2, he2, _⟩ | ⟨j, _, hcase⟩
    · rw [hi] at hp; cases hp
    · rw [hi] at he2; cases he2
    · rcases hcase with ⟨e2, he2, hc2⟩ | ⟨hpass, _⟩
      · rw [hfail] at he2
        cases he2
        rw [hc2]
        refine ⟨rfl, ?_⟩
        intro c hc
        rcases List.mem_append.mp hc with hc | hc
        · exact hr c hc
        · exact hg c hc
      · rw [hfail] at hpass; cases hpass
  · intro file e hc
    have nr := render_calls_no_bash P is u w file (some e)
    rcases hcases with ⟨_, hc2⟩ | ⟨e2, _, hc2⟩ | ⟨j, _, hcase⟩
    · rw [hc2] at hc; exact absurd hc nr
    · rw [hc2] at hc; exact absurd hc nr
    · have hin : Call.Bash file (some e) ∈
          (runCheckBeforeCreateIssue P is (render P is u w).world).2.2 := by
        rcases hcase with ⟨e2, _, hc2⟩ | ⟨_, hcase⟩
        · rw [hc2] at hc
          rcases List.mem_append.mp hc with hc | hc
          · exact absurd hc nr
          · exact hc
        · rcases hcase with ⟨e, _, hc2⟩ | ⟨_, _, hc2⟩ | ⟨_, _, ⟨e, _, hc2⟩ | ⟨_, hc2⟩⟩ <;>
            rw [hc2] at hc <;> simp at hc <;> rcases hc with hc | hc <;>
            first
              | exact absurd hc nr
              | exact hc
      have hfail := runCheck_bash_failed P is (render P is u w).world file e hin
      rcases hcase with ⟨e2, he2, hc2⟩ | ⟨hpass, _⟩
      · rw [hfail] at he2
        cases he2
        rw [hc2]
        refine ⟨rfl, ?_⟩
        intro c hc
        rcases List.mem_append.mp hc with hc | hc
        · exact hr c hc
        · exact hg c hc
      · rw [hfail] at hpass; cases hpass
  · intro k i e hc
    obtain ⟨hk, hi, hpass, herr⟩ := Create_call_inv P is u w k i (some e) hc
    subst hk
    rcases hcases with ⟨hp, _⟩ | ⟨e2, he2, _⟩ | ⟨j, hj, hcase⟩
    · rw [hi] at hp; cases hp
    · rw [hi] at he2; cases he2
    · rw [hi] at hj
      cases hj
      rcases hcase with ⟨e2, he2, _⟩ | ⟨_, hcase⟩
      · rw [hpass] at he2; cases he2
      · rcases hcase with ⟨e2, he2, hc2⟩ | ⟨hnil, _⟩ | ⟨hnil, _⟩
        · rw [← herr] at he2
          cases he2
          refine ⟨by rw [hc2], ?_⟩
          intro k2 url err hcl
          rw [hc2] at hcl
          simp only [List.mem_append, List.mem_singleton] at hcl
          rcases hcl with (hcl | hcl) | hcl
          · simpa [Call.isWrite] using hr _ hcl
          · simpa [Call.isWrite] using hg _ hcl
          · cases hcl
        · rw [← herr] at hnil; cases hnil
        · rw [← herr] at hnil; cases hnil

/-- C8 at a concrete input: a guard script that exits non-zero makes `Create`
return its error, and no repository write is made. -/
theorem Create_write_order_witness :
    (Create (samplePlatform (some (errors.New "exit status 1"))) guardedService
        "https://github.com/o/r/issues/7" []).out =
      .error (errors.WithStack (errors.New "exit status 1")) ∧
    ∀ c ∈ (Create (samplePlatform (some (errors.New "exit status 1"))) guardedService
        "https://github.com/o/r/issues/7" []).calls, c.isWrite = false :=
  (Create_write_order (samplePlatform (some (errors.New "exit status 1"))) guardedService
    "https://github.com/o/r/issues/7" []).2.2.2.2.1 "/tmp/issue_creator_1.sh"
    (errors.New "exit status 1") (by decide)

/-- C9, as stated, fails: when the repository creates the ticket and then
refuses to close the prior one, `Create` returns an error although the ticket
was created (the repository `Create` call returned a nil error and the ticket is
in the world). -/
theorem Create_close_error_after_ticket :
    (Create (samplePlatform none) closeFailsService "https://github.com/o/r/issues/7" []).out =
      .error (errors.WithStack (errors.New "403 Forbidden")) ∧
    Call.Create Kind.issue renderedWeekly none ∈
      (Create (samplePlatform none) closeFailsService "https://github.com/o/r/issues/7" []).calls ∧
    (Create (samplePlatform none) closeFailsService "https://github.com/o/r/issues/7" []).world =
      [renderedWeekly] := by
  refine ⟨by decide, by decide, by decide⟩

/-- C9 (amended): when `Create` returns an error without having called
`CloseByURL` (an error of the fetch, parse, validation, render, guard or
creation stage), no repository `Create` call returned a nil error: no ticket was
created.  When `Create` returns an error although a ticket was created, the
error is that of the failed `CloseByURL` call, under a stack wrapper; that call
is the last one `Create` makes, directly after the repository `Create` call,
and the world `Create` returns is the one left by the repository's `Create`
followed by that `CloseByURL`: `Create` makes no call that undoes the
creation. -/
theorem Create_error_ticket {σ τ : Type} (P : Platform σ τ) (is : issueServiceImpl σ)
    (u : String) (w : σ) (e : GoError) (h : (Create P is u w).out = .error e) :
    ((∀ k url err, Call.CloseByURL k url err ∉ (Create P is u w).calls) →
      ∀ k i, Call.Create k i none ∉ (Create P is u w).calls) ∧
    (∀ k i, Call.Create k i none ∈ (Create P is u w).calls →
      ∃ err,
        ((is.repo k).CloseByURL i.LastIssueURL
          ((is.repo k).Create i (worldBeforeCreate P is u w)).2).1.2 = some err ∧
        e = errors.WithStack err ∧
        (Create P is u w).world =
          ((is.repo k).CloseByURL i.LastIssueURL
            ((is.repo k).Create i (worldBeforeCreate P is u w)).2).2 ∧
        (Create P is u w).calls =
          callsBeforeCreate P is u w ++
            [Call.Create k i none, Call.CloseByURL k i.LastIssueURL (some err)]) := by
  have main : ∀ k i, Call.Create k i none ∈ (Create P is u w).calls →
      ∃ err,
        ((is.repo k).CloseByURL i.LastIssueURL
          ((is.repo k).Create i (worldBeforeCreate P is u w)).2).1.2 = some err ∧
        e = errors.WithStack err ∧
        (Create P is u w).world =
          ((is.repo k).CloseByURL i.LastIssueURL
            ((is.repo k).Create i (worldBeforeCreate P is u w)).2).2 ∧
        (Create P is u w).calls =
          callsBeforeCreate P is u w ++
            [Call.Create k i none, Call.CloseByURL k i.LastIssueURL (some err)] := by
    intro k i hc
    obtain ⟨hk, hi, hpass, hnil⟩ := Create_call_inv P is u w k i none hc
    subst hk
    simp only [worldBeforeCreate, callsBeforeCreate]
    rcases Create_cases P is u w with ⟨hp, _⟩ | ⟨e2, he2, _⟩ | ⟨j, hj, hcase⟩
    · rw [hi] at hp; cases hp
    · rw [hi] at he2; cases he2
    · rw [hi] at hj
      cases hj
      rcases hcase with ⟨e2, he2, _⟩ | ⟨_, hcase⟩
      · rw [hpass] at he2; cases he2
      · rcases hcase with ⟨e2, he2, _⟩ | ⟨_, _, hc2⟩ | ⟨hn, _, ⟨e2, he2, hc2⟩ | ⟨_, hc2⟩⟩
        · rw [← hnil] at he2; cases he2
        · rw [hc2] at h; cases h
        · rw [hc2] at h ⊢
          refine ⟨e2, he2, (Outcome.error.inj h).symm, rfl, ?_⟩
          simp [he2, hn]
        · rw [hc2] at h; cases h
  refine ⟨?_, main⟩
  intro hno k i hc
  obtain ⟨err, _, _, _, hcalls⟩ := main k i hc
  refine hno k i.LastIssueURL (some err) ?_
  rw [hcalls]
  simp

/-- C9 (amended) at concrete inputs: a guard script that exits non-zero, where
the error is returned and no ticket was created; and a refused close, where
the error returned is that of `CloseByURL`, the last call made, and the created
ticket is in the world `Create` returns. -/
theorem Create_error_ticket_witness :
    ((Create (samplePlatform (some (errors.New "exit status 1"))) guardedService
        "https://github.com/o/r/issues/7" []).out =
      .error (errors.WithStack (errors.New "exit status 1")) ∧
      ∀ k i, Call.Create k i none ∉
        (Create (samplePlatform (some (errors.New "exit status 1"))) guardedService
          "https://github.com/o/r/issues/7" []).calls) ∧
    (∃ err,
      some (errors.New "403 Forbidden") = some err ∧
      errors.WithStack (errors.New "403 Forbidden") = errors.WithStack err ∧
      (Create (samplePlatform none) closeFailsService
        "https://github.com/o/r/issues/7" []).world = [renderedWeekly] ∧
      (Create (samplePlatform none) closeFailsService
        "https://github.com/o/r/issues/7" []).calls =
        [Call.FindByURL Kind.issue "https://github.com/o/r/issues/7" none,
         Call.FindLastIssueByLabel Kind.issue (weeklyTemplate ["weekly"]) none] ++
        [Call.Create Kind.issue renderedWeekly none,
         Call.CloseByURL Kind.issue "https://github.com/o/r/issues/6" (some err)]) := by
  refine ⟨⟨by decide, ?_⟩, ?_⟩
  · refine (Create_error_ticket (samplePlatform (some (errors.New "exit status 1")))
      guardedService "https://github.com/o/r/issues/7" []
      (errors.WithStack (errors.New "exit status 1")) (by decide)).1 ?_
    intro k url err hc
    have hcalls : (Create (samplePlatform (some (errors.New "exit status 1"))) guardedService
        "https://github.com/o/r/issues/7" []).calls =
        [Call.FindByURL Kind.issue "https://github.com/o/r/issues/7" none,
         Call.FindLastIssueByLabel Kind.issue (weeklyTemplate ["weekly"]) none,
         Call.TempFile none,
         Call.WriteString "/tmp/issue_creator_1.sh" "exit 1" none,
         Call.Chmod "/tmp/issue_creator_1.sh",
         Call.Close "/tmp/issue_creator_1.sh",
         Call.Bash "/tmp/issue_creator_1.sh" (some (errors.New "exit status 1"))] := by
      decide
    rw [hcalls] at hc
    simp at hc
  · exact (Create_error_ticket (samplePlatform none) closeFailsService
      "https://github.com/o/r/issues/7" []
      (errors.WithStack (errors.New "403 Forbidden")) (by decide)).2 Kind.issue renderedWeekly
      (by decide)

/-- C10, as stated, fails outside the range of the machine integers and at a
zone transition.  `AddDateAndFormat("2006-01-02", 9223372036854775807)` at the
reference time 2024-01-20 10:30:05 UTC is `2024-01-19`: the day count wraps and
the result is the day before the reference date, not a later date.  And in a
location whose clocks go from 00:00 to 01:00 on 2018-11-04, one day after
2018-11-03 00:30 is 2018-11-03 23:30: `AddDateAndFormat("2006-01-02", 1)` is
`2018-11-03`, the reference date itself and not the next calendar day. -/
theorem AddDateAndFormat_out_of_range :
    (sampleTime.Date = (2024, 1, 20) ∧
      (AddDay sampleTime 9223372036854775807).Date = (2024, 1, 19) ∧
      (AddDay sampleTime 9223372036854775807).unix = sampleTime.unix - 86400 ∧
      (AddDay sampleTime 9223372036854775807).Date ≠
        time.addDays sampleTime.Date 9223372036854775807 ∧
      AddDateAndFormat sampleFormat sampleTime "2006-01-02" 9223372036854775807 =
        "2024-01-19") ∧
    (sampleMidnightTime.Date = (2018, 11, 3) ∧ sampleMidnightTime.Clock = (0, 30, 0) ∧
      (AddDay sampleMidnightTime 1).Date = (2018, 11, 3) ∧
      (AddDay sampleMidnightTime 1).Clock = (23, 30, 0) ∧
      time.addDays sampleMidnightTime.Date 1 = (2018, 11, 4) ∧
      AddDateAndFormat sampleFormat sampleMidnightTime "2006-01-02" 1 = "2018-11-03") := by
  refine ⟨⟨by decide, by decide, by decide, ?_, by decide⟩,
    by decide, by decide, by decide, by decide, by decide, by decide⟩
  have h1 : (AddDay sampleTime 9223372036854775807).Date = (2024, 1, 19) := by decide
  have h2 : sampleTime.Date = (2024, 1, 20) := by decide
  rw [h1, h2]
  intro h
  have h3 := (nextDay_iterate_later (9223372036854775807 : Int).toNat (2024, 1, 20)
    (by decide) (by decide)).2.2
  unfold time.addDays at h
  rw [if_pos (by decide)] at h
  rw [← h] at h3
  revert h3
  decide

/-- C10 (amended): `AddDateAndFormat(format, d)` is `Format` applied to the time
`AddDay(d)` and to `format`, for every `format` and `d`.  For a reference time
within 10^17 seconds of the Unix epoch, in a location with offsets of at most
10^6 seconds, and `d` between -10^12 and 10^12 such that no zone transition
lies between the wall clock reading `d` days away and the time it stands for,
`AddDay(d)` has the date `d` calendar days after the reference date (before it
when `d` is negative; counted one calendar day at a time, through the ends of
months and years), the same time of day, nanoseconds and location, and a wall
clock `d * 86400` seconds away.  With a `Format` that prints the layout
`2006-01-02` as year, month and day, 30 days after any such time on 2024-01-20
gives `2024-02-19` and 5 days before any such time on 2024-03-02 gives
`2024-02-26`. -/
theorem AddDateAndFormat_calendar {σ τ : Type} (P : Platform σ τ) (ct : Time)
    (hn : 0 ≤ ct.nsec ∧ ct.nsec < 1000000000)
    (hu : -100000000000000000 ≤ ct.unix ∧ ct.unix ≤ 100000000000000000)
    (ho : ∀ u, -1000000 ≤ (ct.loc.lookup u).1 ∧ (ct.loc.lookup u).1 ≤ 1000000) :
    (∀ (format : String) (d : Int),
      AddDateAndFormat P.Format ct format d = P.Format (AddDay ct d) format) ∧
    (∀ d : Int, -1000000000000 ≤ d → d ≤ 1000000000000 →
      ct.loc.stableAt (ct.wall + d * 86400) →
      (AddDay ct d).Date = time.addDays ct.Date d ∧ (AddDay ct d).Clock = ct.Clock ∧
      (AddDay ct d).nsec = ct.nsec ∧ (AddDay ct d).loc = ct.loc ∧
      (AddDay ct d).wall = ct.wall + d * 86400) ∧
    ((∀ t, P.Format t "2006-01-02" = time.isoDate t.Date) →
      (ct.Date = (2024, 1, 20) → ct.loc.stableAt (ct.wall + 30 * 86400) →
        AddDateAndFormat P.Format ct "2006-01-02" 30 = "2024-02-19") ∧
      (ct.Date = (2024, 3, 2) → ct.loc.stableAt (ct.wall + (-5) * 86400) →
        AddDateAndFormat P.Format ct "2006-01-02" (-5) = "2024-02-26")) := by
  refine ⟨fun _ _ => rfl, ?_, ?_⟩
  · intro d h0 h1 hst
    obtain ⟨k1, k2, k3, k4, k5⟩ := AddDate_calendar ct d hn hu ⟨h0, h1⟩ ho hst
    exact ⟨k4, k5, k2, k1, k3⟩
  · intro hF
    constructor
    · intro hD hst
      obtain ⟨_, _, _, k4, _⟩ := AddDate_calendar ct 30 hn hu (by omega) ho hst
      show P.Format (ct.AddDate 0 0 30) "2006-01-02" = _
      rw [hF, k4, hD, addDays_of_day 106751991092836 30 _ (by decide) (by decide) (by decide)
        (by decide) (by decide)]
      decide
    · intro hD hst
      obtain ⟨_, _, _, k4, _⟩ := AddDate_calendar ct (-5) hn hu (by omega) ho hst
      show P.Format (ct.AddDate 0 0 (-5)) "2006-01-02" = _
      rw [hF, k4, hD, addDays_of_day 106751991092878 (-5) _ (by decide) (by decide) (by decide)
        (by decide) (by decide)]
      decide

/-- C10 (amended) at concrete reference times: 2024-01-20 10:30:05 UTC, and the
last nanosecond of 2024-03-02 in a location with a daylight-saving transition;
346 and 347 days after the first are the last day of 2024 and the first of
2025, at the same time of day, and 367 days before the second, through the leap
day of 2024, is 2023-03-01. -/
theorem AddDateAndFormat_calendar_witness :
    AddDateAndFormat sampleFormat sampleTime "2006-01-02" 30 = "2024-02-19" ∧
    AddDateAndFormat sampleFormat sampleLocalTime "2006-01-02" (-5) = "2024-02-26" ∧
    (AddDay sampleTime 346).Date = (2024, 12, 31) ∧
    ((AddDay sampleTime 347).Date = (2025, 1, 1) ∧
      (AddDay sampleTime 347).Clock = (10, 30, 5)) ∧
    (AddDay sampleLocalTime (-367)).Date = (2023, 3, 1) :=
  ⟨((AddDateAndFormat_calendar (samplePlatform none) sampleTime (by decide) (by decide)
      (fun _ => by simp [sampleTime, time.UTC, time.FixedZone])).2.2
      sampleFormat_isoDate).1 (by decide) (by decide),
   ((AddDateAndFormat_calendar (samplePlatform none) sampleLocalTime (by decide) (by decide)
      (fun u => by unfold sampleLocalTime sampleZone; simp only []; split <;> decide)).2.2
      sampleFormat_isoDate).2 (by decide) (by decide),
   ((AddDateAndFormat_calendar (samplePlatform none) sampleTime (by decide) (by decide)
      (fun _ => by simp [sampleTime, time.UTC, time.FixedZone])).2.1 346 (by decide) (by decide)
      (by decide)).1.trans ((addDays_of_day 106751991092836 346 _ (by decide) (by decide)
      (by decide) (by decide) (by decide)).trans (by decide)),
   ⟨((AddDateAndFormat_calendar (samplePlatform none) sampleTime (by decide) (by decide)
      (fun _ => by simp [sampleTime, time.UTC, time.FixedZone])).2.1 347 (by decide) (by decide)
      (by decide)).1.trans ((addDays_of_day 106751991092836 347 _ (by decide) (by decide)
      (by decide) (by decide) (by decide)).trans (by decide)),
    ((AddDateAndFormat_calendar (samplePlatform none) sampleTime (by decide) (by decide)
      (fun _ => by simp [sampleTime, time.UTC, time.FixedZone])).2.1 347 (by decide) (by decide)
      (by decide)).2.1.trans (by decide)⟩,
   ((AddDateAndFormat_calendar (samplePlatform none) sampleLocalTime (by decide) (by decide)
      (fun u => by unfold sampleLocalTime sampleZone; simp only []; split <;> decide)).2.1
      (-367) (by decide) (by decide) (by decide)).1.trans
      ((addDays_of_day 106751991092878 (-367) _ (by decide) (by decide) (by decide) (by decide)
        (by decide)).trans (by decide))⟩

end IssueCreator
